import Mathlib

/-!
Verification of the Resume-Formatter extraction and reconciliation core.

This file gives a shallow embedding, in Lean, of the text-processing
functions of `Backend/utils/advanced_resume_parser.py`,
`Backend/utils/word_formatter.py` and
`Backend/utils/intelligent_formatter.py`, and proves (or refutes)
the specification claims about them.

Text is modelled as `List Char`.  Python regular-expression operations are
embedded as explicit left-to-right scanners with the same leftmost,
non-overlapping matching discipline as Python's `re.sub` / `re.findall` /
`re.search`, including word-boundary semantics.  Python's `datetime.now().year`
is passed in as an explicit parameter wherever the source consults it
(its value at verification time is 2026).
-/

/-! ## Basic character classes and string utilities -/

abbrev Chars := List Char

/-- Whitespace for Python's `str.strip()` and the regex class `\s`
(the ASCII whitespace characters). -/
def isPySpace (c : Char) : Bool :=
  c = ' ' || c = '\t' || c = '\n' || c = '\r' || c = '\x0b' || c = '\x0c'

/-- Python regex word character (the `\w` class, used by `\b` boundaries):
ASCII alphanumerics and underscore, plus the two non-ASCII characters that
occur in the source's string constants ('ï' U+00EF is a Unicode letter and
'¼' U+00BC is Unicode-numeric, so Python's Unicode-aware `\w` matches both). -/
def isWordChar (c : Char) : Bool :=
  c.isAlphanum || c = '_' || c = 'ï' || c = '¼'

/-- `str.strip()`: drop whitespace from both ends. -/
def pyStrip (l : Chars) : Chars :=
  ((l.dropWhile isPySpace).reverse.dropWhile isPySpace).reverse

/-- `str.strip(set)`: drop characters of `set` from both ends. -/
def pyStripSet (set : Chars) (l : Chars) : Chars :=
  ((l.dropWhile (fun c => set.contains c)).reverse.dropWhile
    (fun c => set.contains c)).reverse

/-- `str.lower()` (ASCII case mapping suffices for the vocabulary used). -/
def toLowerL (l : Chars) : Chars := l.map Char.toLower

/-- Case-sensitive substring containment (Python's `in`). -/
def containsSub (l pat : Chars) : Bool :=
  l.tails.any (fun t => pat.isPrefixOf t)

/-- Case-insensitive substring containment, as the source's
`search_term.lower() in text.lower()`. -/
def containsCI (l pat : Chars) : Bool :=
  containsSub (toLowerL l) (toLowerL pat)

/-- Case-insensitive single-character match against a lowercase pattern
character (Python `re.IGNORECASE` on ASCII letters). -/
def eq_ci (w c : Char) : Bool := c = w || c = w.toUpper

/-- Match the (lowercase) pattern word case-insensitively at the head of `l`;
on success return the remainder. -/
def word_ci : Chars → Chars → Option Chars
  | [], rest => some rest
  | _ :: _, [] => none
  | w :: ws, c :: rest => if eq_ci w c then word_ci ws rest else none

/-- `\b` holds before the current position, given the previous character
(`none` at the start of the string), when the current character is a word
character. -/
def boundaryOk : Option Char → Bool
  | none => true
  | some p => !isWordChar p

/-- `\b` holds after a word character at the end of a match, looking at the
rest of the string. -/
def boundaryAfter : Chars → Bool
  | [] => true
  | c :: _ => !isWordChar c

/-! ## `_normalize_text` (advanced_resume_parser.py lines 412-418) -/

/-- `str.replace(a, ' ')` for a single character `a`. -/
def repl_char (a : Char) (l : Chars) : Chars :=
  l.map (fun c => if c = a then ' ' else c)

/-- `str.replace('ï¼', ' ')`: replace the two-character sequence
U+00EF U+00BC by one space, scanning left to right. -/
def repl_pair : Chars → Chars
  | [] => []
  | [c] => [c]
  | c :: c2 :: rest =>
    if c = 'ï' ∧ c2 = '¼' then ' ' :: repl_pair rest
    else c :: repl_pair (c2 :: rest)

/-- `re.sub(r'\s+', ' ', s)`: collapse every whitespace run to one space.
The flag records whether we are inside a whitespace run. -/
def collapse_ws : Bool → Chars → Chars
  | _, [] => []
  | inRun, c :: rest =>
    if isPySpace c then
      if inRun then collapse_ws true rest else ' ' :: collapse_ws true rest
    else c :: collapse_ws false rest

/-- `_normalize_text`: `if not s: return ''`; replace U+200B, the pair
'ï¼', and U+FEFF by spaces; collapse whitespace runs; strip. -/
def normalize_text (l : Chars) : Chars :=
  if l = [] then []
  else pyStrip (collapse_ws false
    (repl_char '﻿' (repl_pair (repl_char '​' l))))

/-! ## The year-cleaning pipeline
(`_clean_years`, advanced_resume_parser.py lines 427-438, and
`_clean_duration`, word_formatter.py lines 452-475) -/

/-- Try to match `\s*(to|–|—|-)\s*` (IGNORECASE) at the head of `l`
(a match must contain one of the connector tokens); on success return the
remainder after the greedy trailing `\s*`. -/
def conn_match (l : Chars) : Option Chars :=
  match l.dropWhile isPySpace with
  | c1 :: c2 :: rest =>
    if eq_ci 't' c1 ∧ eq_ci 'o' c2 then some (rest.dropWhile isPySpace)
    else if c1 = '–' ∨ c1 = '—' ∨ c1 = '-' then
      some ((c2 :: rest).dropWhile isPySpace)
    else none
  | [c1] =>
    if eq_ci 't' c1 then none
    else if c1 = '–' ∨ c1 = '—' ∨ c1 = '-' then some []
    else none
  | [] => none

/-- `re.sub(r'\s*(to|–|—|-)\s*', '-', s, flags=IGNORECASE)`: leftmost
non-overlapping scan, each match replaced by a single '-'.  The fuel is the
length of the remaining text; each step consumes at least one character. -/
def sub_conn_go : Nat → Chars → Chars
  | _, [] => []
  | 0, l => l
  | fuel + 1, c :: rest =>
    match conn_match (c :: rest) with
    | some rem => '-' :: sub_conn_go fuel rem
    | none => c :: sub_conn_go fuel rest

def sub_conn (l : Chars) : Chars := sub_conn_go l.length l

/-- Do the seven characters spell `current` or `present` case-insensitively? -/
def cp_word (c1 c2 c3 c4 c5 c6 c7 : Char) : Bool :=
  (eq_ci 'c' c1 && eq_ci 'u' c2 && eq_ci 'r' c3 && eq_ci 'r' c4 &&
   eq_ci 'e' c5 && eq_ci 'n' c6 && eq_ci 't' c7) ||
  (eq_ci 'p' c1 && eq_ci 'r' c2 && eq_ci 'e' c3 && eq_ci 's' c4 &&
   eq_ci 'e' c5 && eq_ci 'n' c6 && eq_ci 't' c7)

/-- `re.sub(r'\b(current|present)\b', year, s, flags=IGNORECASE)`.
`prev` is the character before the current position in the original string
(`none` at the start); both matched words have seven characters.  The fuel
is the length of the remaining text; each step consumes at least one
character. -/
def sub_cp_go (year : Chars) : Nat → Option Char → Chars → Chars
  | _, _, [] => []
  | 0, _, l => l
  | fuel + 1, prev, c :: rest =>
    if boundaryOk prev then
      match rest with
      | c2 :: c3 :: c4 :: c5 :: c6 :: c7 :: rest2 =>
        if cp_word c c2 c3 c4 c5 c6 c7 ∧ boundaryAfter rest2 = true then
          year ++ sub_cp_go year fuel (some c7) rest2
        else c :: sub_cp_go year fuel (some c) rest
      | _ => c :: sub_cp_go year fuel (some c) rest
    else c :: sub_cp_go year fuel (some c) rest

def sub_cp (year : Chars) (prev : Option Char) (l : Chars) : Chars :=
  sub_cp_go year l.length prev l

/-- The head of a `\b(?:19|20)\d{2}\b` match: first two characters "19" or
"20", two more digits, and a word boundary after. -/
def year_cond (c1 c2 c3 c4 : Char) (rest2 : Chars) : Bool :=
  ((c1 = '1' && c2 = '9') || (c1 = '2' && c2 = '0')) &&
  c3.isDigit && c4.isDigit && boundaryAfter rest2

/-- `re.findall(r'\b(?:19|20)\d{2}\b', s)`: all (necessarily disjoint)
matches, left to right.  `prev` is the character before the current
position in the original string.  The fuel is the length of the remaining
text; each step consumes at least one character. -/
def find_years_go : Nat → Option Char → Chars → List Chars
  | _, _, [] => []
  | 0, _, _ => []
  | fuel + 1, prev, c1 :: rest =>
    if boundaryOk prev then
      match rest with
      | c2 :: c3 :: c4 :: rest2 =>
        if year_cond c1 c2 c3 c4 rest2 then
          [c1, c2, c3, c4] :: find_years_go fuel (some c4) rest2
        else find_years_go fuel (some c1) rest
      | _ => find_years_go fuel (some c1) rest
    else find_years_go fuel (some c1) rest

def find_years (prev : Option Char) (l : Chars) : List Chars :=
  find_years_go l.length prev l

/-- `years[-1]` of a Python list (empty list never consulted by the caller). -/
def last1 : List Chars → Chars
  | [] => []
  | [y] => y
  | _ :: y :: t => last1 (y :: t)

/-- The year list extracted by `_clean_years` from its input, after its full
preprocessing (unicode/whitespace normalization, connector normalization,
current/present substitution). -/
def years_of (cy : Chars) (l : Chars) : List Chars :=
  find_years none (sub_cp cy none (sub_conn (normalize_text l)))

/-- `_clean_years` (advanced_resume_parser.py lines 427-438).  `cy` is
`str(datetime.now().year)`. -/
def clean_years (cy : Chars) (l : Chars) : Chars :=
  if l = [] then []
  else
    match years_of cy l with
    | [] => []
    | [y] => y
    | y1 :: y2 :: t => y1 ++ '-' :: last1 (y2 :: t)

/-- `_clean_duration` (word_formatter.py lines 452-475): same year
extraction, but the input is only `strip`ped (not unicode/whitespace
normalized) and the word current/present is replaced by the hardcoded
constant `'2025'`. -/
def clean_duration (l : Chars) : Chars :=
  if l = [] then []
  else
    match find_years none (sub_cp ("2025".toList) none (sub_conn (pyStrip l))) with
    | [] => []
    | [y] => y
    | y1 :: y2 :: t => y1 ++ '-' :: last1 (y2 :: t)

/-! ## Character-class facts -/

theorem isDigit_not_space {c : Char} (h : c.isDigit = true) : isPySpace c = false := by
  rcases hb : isPySpace c with _ | _
  · rfl
  · exfalso
    simp only [isPySpace, Bool.or_eq_true, decide_eq_true_eq] at hb
    rcases hb with ((((rfl | rfl) | rfl) | rfl) | rfl) | rfl <;> exact absurd h (by decide)

theorem isDigit_ne {c : Char} (h : c.isDigit = true) (d : Char) (hd : d.isDigit = false) :
    c ≠ d := by
  intro e
  rw [e, hd] at h
  exact Bool.false_ne_true h

theorem isDigit_isWordChar {c : Char} (h : c.isDigit = true) : isWordChar c = true := by
  simp [isWordChar, Char.isAlphanum, h]

/-! ## Shape of extracted years -/

/-- The first two characters of a year token. -/
def year_first (c1 c2 : Char) : Prop := (c1 = '1' ∧ c2 = '9') ∨ (c1 = '2' ∧ c2 = '0')

/-- Every token produced by the year scanner is a four-digit token starting
with 19 or 20. -/
def isYear (y : Chars) : Prop :=
  ∃ c1 c2 c3 c4, y = [c1, c2, c3, c4] ∧ year_first c1 c2 ∧
    c3.isDigit = true ∧ c4.isDigit = true

theorem year_first_bool {c1 c2 : Char} (h : year_first c1 c2) :
    ((c1 = '1' && c2 = '9') || (c1 = '2' && c2 = '0')) = true := by
  rcases h with ⟨rfl, rfl⟩ | ⟨rfl, rfl⟩ <;> decide

theorem year_first_digit {c1 c2 : Char} (h : year_first c1 c2) :
    c1.isDigit = true ∧ c2.isDigit = true := by
  rcases h with ⟨rfl, rfl⟩ | ⟨rfl, rfl⟩ <;> exact ⟨by decide, by decide⟩

theorem isYear_digits {y : Chars} (h : isYear y) : ∀ c ∈ y, c.isDigit = true := by
  obtain ⟨c1, c2, c3, c4, rfl, hf, h3, h4⟩ := h
  have h12 := year_first_digit hf
  intro c hc
  rcases hc with _ | ⟨_, _ | ⟨_, _ | ⟨_, _ | ⟨_, h⟩⟩⟩⟩
  · exact h12.1
  · exact h12.2
  · exact h3
  · exact h4
  · cases h

theorem find_years_go_shape :
    ∀ (fuel : Nat) (prev : Option Char) (l : Chars),
      ∀ y ∈ find_years_go fuel prev l, isYear y := by
  intro fuel
  induction fuel with
  | zero =>
    intro prev l y hy
    cases l <;> simp [find_years_go] at hy
  | succ n ih =>
    intro prev l y hy
    rcases l with _ | ⟨c1, _ | ⟨c2, _ | ⟨c3, _ | ⟨c4, rest2⟩⟩⟩⟩
    · simp [find_years_go] at hy
    · simp [find_years_go] at hy
    · simp only [find_years_go, ite_self] at hy
      exact ih _ _ _ hy
    · simp only [find_years_go, ite_self] at hy
      exact ih _ _ _ hy
    · simp only [find_years_go] at hy
      split at hy
      · split at hy
        next hcond =>
          rcases List.mem_cons.mp hy with rfl | hmem
          · simp only [year_cond, Bool.and_eq_true, Bool.or_eq_true,
              decide_eq_true_eq] at hcond
            exact ⟨c1, c2, c3, c4, rfl,
              hcond.1.1.1.imp (fun h => h) (fun h => h), hcond.1.1.2, hcond.1.2⟩
          · exact ih _ _ _ hmem
        next => exact ih _ _ _ hy
      · exact ih _ _ _ hy

theorem find_years_shape {prev : Option Char} {l : Chars} :
    ∀ y ∈ find_years prev l, isYear y :=
  find_years_go_shape l.length prev l

theorem last1_mem : ∀ (l : List Chars), l ≠ [] → last1 l ∈ l := by
  intro l
  induction l with
  | nil => intro h; exact absurd rfl h
  | cons y t ih =>
    intro _
    cases t with
    | nil => simp [last1]
    | cons y2 t2 =>
      rw [last1]
      exact List.mem_cons_of_mem _ (ih (by simp))

/-! ## Fixpoint lemmas: the cleaning pipeline fixes year-shaped output -/

theorem repl_char_fix (a : Char) :
    ∀ (l : Chars), (∀ c ∈ l, c ≠ a) → repl_char a l = l := by
  intro l
  induction l with
  | nil => intro _; rfl
  | cons c rest ih =>
    intro h
    have hc : c ≠ a := h c (by simp)
    have hr := ih (fun x hx => h x (by simp [hx]))
    simp only [repl_char, List.map_cons] at hr ⊢
    rw [if_neg hc]
    exact congrArg _ hr

theorem repl_pair_fix :
    ∀ (l : Chars), (∀ c ∈ l, c ≠ 'ï') → repl_pair l = l := by
  intro l
  induction l with
  | nil => intro _; rfl
  | cons c rest ih =>
    intro h
    have hc : c ≠ 'ï' := h c (by simp)
    cases rest with
    | nil => rfl
    | cons c2 rest2 =>
      rw [repl_pair, if_neg (fun hand => hc hand.1)]
      exact congrArg _ (ih (fun x hx => h x (by simp [hx])))

theorem collapse_ws_fix :
    ∀ (l : Chars), (∀ c ∈ l, isPySpace c = false) → ∀ b, collapse_ws b l = l := by
  intro l
  induction l with
  | nil => intro _ b; rfl
  | cons c rest ih =>
    intro h b
    rw [collapse_ws, if_neg (by rw [h c (by simp)]; exact Bool.false_ne_true)]
    exact congrArg _ (ih (fun x hx => h x (by simp [hx])) false)

theorem dropWhile_space_id {l : Chars} (h : ∀ c ∈ l, isPySpace c = false) :
    l.dropWhile isPySpace = l := by
  cases l with
  | nil => rfl
  | cons c rest => simp [List.dropWhile_cons, h c (by simp)]

theorem pyStrip_fix {l : Chars} (h : ∀ c ∈ l, isPySpace c = false) : pyStrip l = l := by
  rw [pyStrip, dropWhile_space_id h,
    dropWhile_space_id (fun c hc => h c (List.mem_reverse.mp hc)), List.reverse_reverse]

theorem normalize_text_fix {l : Chars}
    (h : ∀ c ∈ l, isPySpace c = false ∧ c ≠ '​' ∧ c ≠ '﻿' ∧ c ≠ 'ï') :
    normalize_text l = l := by
  rw [normalize_text]
  by_cases hl : l = []
  · rw [if_pos hl, hl]
  · rw [if_neg hl, repl_char_fix _ l (fun c hc => (h c hc).2.1),
      repl_pair_fix l (fun c hc => (h c hc).2.2.2),
      repl_char_fix _ l (fun c hc => (h c hc).2.2.1),
      collapse_ws_fix l (fun c hc => (h c hc).1) false,
      pyStrip_fix (fun c hc => (h c hc).1)]

/-- A character that is a digit or '-' is inert for the connector scanner,
except that '-' itself is a connector consuming just itself. -/
theorem conn_match_dd {c : Char} {rest : Chars}
    (hc : c.isDigit = true ∨ c = '-') (hr : ∀ x ∈ rest, x.isDigit = true ∨ x = '-') :
    conn_match (c :: rest) = if c = '-' then some rest else none := by
  have hcs : isPySpace c = false := by
    rcases hc with h | rfl
    · exact isDigit_not_space h
    · decide
  have hct : eq_ci 't' c = false := by
    rcases hc with h | rfl
    · simp [eq_ci, isDigit_ne h 't' (by decide), isDigit_ne h 'T' (by decide)]
    · decide
  have hdash : (c = '–' ∨ c = '—' ∨ c = '-') ↔ c = '-' := by
    constructor
    · rintro (rfl | rfl | rfl)
      · rcases hc with h | h
        · exact absurd h (by decide)
        · exact absurd h (by decide)
      · rcases hc with h | h
        · exact absurd h (by decide)
        · exact absurd h (by decide)
      · rfl
    · rintro rfl; right; right; rfl
  cases rest with
  | nil =>
    rw [conn_match]
    simp only [List.dropWhile_cons, hcs, Bool.false_eq_true, if_false, List.dropWhile_nil]
    rw [if_neg (by rw [hct]; exact Bool.false_ne_true)]
    by_cases hd : c = '-'
    · rw [if_pos (hdash.mpr hd), if_pos hd]
    · rw [if_neg (fun h => hd (hdash.mp h)), if_neg hd]
  | cons c2 rest2 =>
    have hc2 : isPySpace c2 = false := by
      rcases hr c2 (by simp) with h | rfl
      · exact isDigit_not_space h
      · decide
    rw [conn_match]
    simp only [List.dropWhile_cons, hcs, Bool.false_eq_true, if_false]
    rw [if_neg (fun hand => by rw [hct] at hand; exact Bool.false_ne_true hand.1)]
    by_cases hd : c = '-'
    · rw [if_pos (hdash.mpr hd), if_pos hd]
      simp [List.dropWhile_cons, hc2]
    · rw [if_neg (fun h => hd (hdash.mp h)), if_neg hd]

theorem sub_conn_go_fix :
    ∀ (fuel : Nat) (l : Chars), (∀ c ∈ l, c.isDigit = true ∨ c = '-') →
      sub_conn_go fuel l = l := by
  intro fuel
  induction fuel with
  | zero => intro l _; cases l <;> rfl
  | succ n ih =>
    intro l h
    cases l with
    | nil => rfl
    | cons c rest =>
      have hrest : ∀ x ∈ rest, x.isDigit = true ∨ x = '-' :=
        fun x hx => h x (by simp [hx])
      rw [sub_conn_go, conn_match_dd (h c (by simp)) hrest]
      by_cases hd : c = '-'
      · rw [if_pos hd, hd]
        exact congrArg _ (ih rest hrest)
      · rw [if_neg hd]
        exact congrArg _ (ih rest hrest)

theorem sub_conn_fix {l : Chars} (h : ∀ c ∈ l, c.isDigit = true ∨ c = '-') :
    sub_conn l = l :=
  sub_conn_go_fix l.length l h

theorem sub_cp_go_fix (year : Chars) :
    ∀ (fuel : Nat) (prev : Option Char) (l : Chars),
      (∀ c ∈ l, c ≠ 'c' ∧ c ≠ 'C' ∧ c ≠ 'p' ∧ c ≠ 'P') →
      sub_cp_go year fuel prev l = l := by
  intro fuel
  induction fuel with
  | zero => intro prev l _; cases l <;> rfl
  | succ n ih =>
    intro prev l h
    cases l with
    | nil => rfl
    | cons c rest =>
      have hc := h c (by simp)
      have hcp : ∀ c2 c3 c4 c5 c6 c7, cp_word c c2 c3 c4 c5 c6 c7 = false := by
        intro c2 c3 c4 c5 c6 c7
        simp [cp_word, eq_ci, hc.1, hc.2.1, hc.2.2.1, hc.2.2.2]
      have hrest : ∀ x ∈ rest, x ≠ 'c' ∧ x ≠ 'C' ∧ x ≠ 'p' ∧ x ≠ 'P' :=
        fun x hx => h x (by simp [hx])
      have hrec : sub_cp_go year n (some c) rest = rest := ih (some c) rest hrest
      rcases rest with _ | ⟨c2, _ | ⟨c3, _ | ⟨c4, _ | ⟨c5, _ | ⟨c6, _ | ⟨c7, rest3⟩⟩⟩⟩⟩⟩
      · simp only [sub_cp_go]
        split <;> rfl
      · simp only [sub_cp_go]
        rw [hrec]
        split <;> rfl
      · simp only [sub_cp_go]
        rw [hrec]
        split <;> rfl
      · simp only [sub_cp_go]
        rw [hrec]
        split <;> rfl
      · simp only [sub_cp_go]
        rw [hrec]
        split <;> rfl
      · simp only [sub_cp_go]
        rw [hrec]
        split <;> rfl
      · simp only [sub_cp_go]
        rw [if_neg (show ¬(cp_word c c2 c3 c4 c5 c6 c7 = true ∧
            boundaryAfter rest3 = true) from by simp [hcp]), hrec]
        split <;> rfl

theorem sub_cp_fix {year : Chars} {l : Chars}
    (h : ∀ c ∈ l, c ≠ 'c' ∧ c ≠ 'C' ∧ c ≠ 'p' ∧ c ≠ 'P') (prev : Option Char) :
    sub_cp year prev l = l :=
  sub_cp_go_fix year l.length prev l h

/-- A digit-or-dash character satisfies all the inertness side conditions of
the cleaning pipeline. -/
theorem digit_dash_safe {c : Char} (h : c.isDigit = true ∨ c = '-') :
    (isPySpace c = false ∧ c ≠ '​' ∧ c ≠ '﻿' ∧ c ≠ 'ï') ∧
    (c ≠ 'c' ∧ c ≠ 'C' ∧ c ≠ 'p' ∧ c ≠ 'P') := by
  rcases h with h | rfl
  · exact ⟨⟨isDigit_not_space h, isDigit_ne h _ (by decide), isDigit_ne h _ (by decide),
      isDigit_ne h _ (by decide)⟩,
      isDigit_ne h _ (by decide), isDigit_ne h _ (by decide),
      isDigit_ne h _ (by decide), isDigit_ne h _ (by decide)⟩
  · exact ⟨⟨by decide, by decide, by decide, by decide⟩,
      by decide, by decide, by decide, by decide⟩

theorem fy_single {y : Chars} (h : isYear y) : find_years none y = [y] := by
  obtain ⟨c1, c2, c3, c4, rfl, hf, h3, h4⟩ := h
  have hb := year_first_bool hf
  simp [find_years, find_years_go, boundaryOk, year_cond, boundaryAfter, hb, h3, h4]

theorem fy_pair {y1 y2 : Chars} (h1 : isYear y1) (h2 : isYear y2) :
    find_years none (y1 ++ '-' :: y2) = [y1, y2] := by
  obtain ⟨a1, a2, a3, a4, rfl, haf, ha3, ha4⟩ := h1
  obtain ⟨b1, b2, b3, b4, rfl, hbf, hb3, hb4⟩ := h2
  have hab := year_first_bool haf
  have hbb := year_first_bool hbf
  have ha4w : isWordChar a4 = true := isDigit_isWordChar ha4
  simp [find_years, find_years_go, boundaryOk, year_cond, boundaryAfter,
    hab, hbb, ha3, ha4, hb3, hb4, ha4w, isWordChar]

/-- The cleaning function fixes a single year token. -/
theorem clean_years_fix_single {cy y : Chars} (h : isYear y) : clean_years cy y = y := by
  have hdd : ∀ c ∈ y, c.isDigit = true ∨ c = '-' := fun c hc => .inl (isYear_digits h c hc)
  have hy4 : y ≠ [] := by
    obtain ⟨c1, _, _, _, rfl, _⟩ := h
    simp
  rw [clean_years, if_neg hy4, years_of,
    normalize_text_fix (fun c hc => (digit_dash_safe (hdd c hc)).1),
    sub_conn_fix hdd, sub_cp_fix (fun c hc => (digit_dash_safe (hdd c hc)).2) none,
    fy_single h]

/-- The cleaning function fixes a first-last year pair. -/
theorem clean_years_fix_pair {cy y1 y2 : Chars} (h1 : isYear y1) (h2 : isYear y2) :
    clean_years cy (y1 ++ '-' :: y2) = y1 ++ '-' :: y2 := by
  have hdd : ∀ c ∈ y1 ++ '-' :: y2, c.isDigit = true ∨ c = '-' := by
    intro c hc
    rcases List.mem_append.mp hc with hc | hc
    · exact .inl (isYear_digits h1 c hc)
    · rcases List.mem_cons.mp hc with rfl | hc
      · exact .inr rfl
      · exact .inl (isYear_digits h2 c hc)
  have hne : y1 ++ '-' :: y2 ≠ [] := by simp
  rw [clean_years, if_neg hne, years_of,
    normalize_text_fix (fun c hc => (digit_dash_safe (hdd c hc)).1),
    sub_conn_fix hdd, sub_cp_fix (fun c hc => (digit_dash_safe (hdd c hc)).2) none,
    fy_pair h1 h2]
  obtain ⟨c1, _, _, _, rfl, _⟩ := h2
  rfl

/-- Claim C1: duration/year cleaning is order-preserving (first-last over the
years found after the function's preprocessing, with the shared shape
`first-last` / bare year / empty) and idempotent, for every current year
string and every input. -/
theorem C1_clean_years_shape_idempotent (cy l : Chars) :
    ((years_of cy l = [] → clean_years cy l = []) ∧
     (∀ y, years_of cy l = [y] → clean_years cy l = y) ∧
     (2 ≤ (years_of cy l).length →
       clean_years cy l =
         (years_of cy l).headD [] ++ '-' :: last1 (years_of cy l))) ∧
    clean_years cy (clean_years cy l) = clean_years cy l := by
  have hshape : ∀ y ∈ years_of cy l, isYear y := fun y hy => find_years_shape y hy
  have hval : clean_years cy l = [] ∨
      (∃ y, isYear y ∧ clean_years cy l = y) ∨
      (∃ y1 yl, isYear y1 ∧ isYear yl ∧ clean_years cy l = y1 ++ '-' :: yl) := by
    by_cases hl : l = []
    · left; rw [hl]; rfl
    · rw [clean_years, if_neg hl]
      match hys : years_of cy l with
      | [] => left; rfl
      | [y] => right; left; exact ⟨y, hshape y (by rw [hys]; simp), rfl⟩
      | y1 :: y2 :: t =>
        right; right
        refine ⟨y1, last1 (y2 :: t), hshape y1 (by rw [hys]; simp), ?_, rfl⟩
        exact hshape _
          (by rw [hys]; exact List.mem_cons_of_mem _ (last1_mem _ (by simp)))
  refine ⟨?_, ?_⟩
  · by_cases hl : l = []
    · subst hl
      refine ⟨fun _ => rfl, fun y hy => ?_, fun hlen => ?_⟩
      · rw [show years_of cy [] = [] from rfl] at hy
        cases hy
      · rw [show years_of cy [] = [] from rfl] at hlen
        simp at hlen
    · rw [clean_years, if_neg hl]
      refine ⟨fun h => by rw [h], fun y hy => by rw [hy], fun hlen => ?_⟩
      match hys : years_of cy l with
      | [] => rw [hys] at hlen; simp at hlen
      | [y] => rw [hys] at hlen; simp at hlen
      | y1 :: y2 :: t => simp [last1]
  · rcases hval with h0 | ⟨y, hy, he⟩ | ⟨y1, yl, h1, h2, he⟩
    · rw [h0]; rfl
    · rw [he]; exact clean_years_fix_single hy
    · rw [he]; exact clean_years_fix_pair h1 h2

/-- Witness for C1 at a concrete input. -/
theorem C1_witness :
    2 ≤ (years_of ("2026".toList) ("2019 to 2021".toList)).length ∧
    clean_years ("2026".toList) ("2019 to 2021".toList) =
      (years_of ("2026".toList) ("2019 to 2021".toList)).headD [] ++ '-' ::
        last1 (years_of ("2026".toList) ("2019 to 2021".toList)) :=
  ⟨by decide,
    (C1_clean_years_shape_idempotent ("2026".toList) ("2019 to 2021".toList)).1.2.2
      (by decide)⟩

/-- Claim C9 counterexample: the extractor's `_clean_years` and the
formatter's `_clean_duration` are not the same function.  At the current
calendar year 2026 they disagree on "present" (the formatter substitutes the
hardcoded constant 2025); and even with matching year constants they disagree
on "2019ï¼2020", which only `_clean_years` unicode-normalizes. -/
theorem C9_counterexample :
    clean_years ("2026".toList) ("present".toList) ≠
      clean_duration ("present".toList) ∧
    clean_years ("2025".toList) ("2019ï¼2020".toList) ≠
      clean_duration ("2019ï¼2020".toList) := by
  exact ⟨by decide, by decide⟩

/-- Claim C9 (amended): the two cleaners share the connector-normalization /
current-present substitution / year-extraction pipeline and agree on every
input that is already fixed by `_normalize_text` and by `strip`, provided the
current calendar year is 2025 (the constant hardcoded in `_clean_duration`). -/
theorem C9_clean_equivalence (l : Chars)
    (h1 : normalize_text l = l) (h2 : pyStrip l = l) :
    clean_years ("2025".toList) l = clean_duration l := by
  simp only [clean_years, clean_duration, years_of, h1, h2]

/-- Witness for C9 at a concrete input. -/
theorem C9_witness :
    normalize_text ("2019 to 2021".toList) = "2019 to 2021".toList ∧
    clean_years ("2025".toList) ("2019 to 2021".toList) =
      clean_duration ("2019 to 2021".toList) :=
  ⟨by decide, C9_clean_equivalence ("2019 to 2021".toList) (by decide) (by decide)⟩

/-! ## `_is_section_header` (advanced_resume_parser.py lines 601-613) -/

def sectionKeywords : List Chars :=
  (["experience", "education", "skills", "summary", "objective",
    "projects", "certifications", "awards", "languages", "profile",
    "work history", "employment", "qualifications", "achievements"] :
    List String).map String.toList

/-- `_is_section_header`: length-gated (raw length at most 50), then the
lowercased, stripped line must equal or start with a vocabulary keyword. -/
def is_section_header (line : Chars) : Bool :=
  if line.length > 50 then false
  else
    let line_lower := pyStrip (toLowerL line)
    sectionKeywords.any (fun k => (k == line_lower) || k.isPrefixOf line_lower)

/-- Claim C4: a line is classified as a section header iff its raw length is
at most 50 and, lowercased and stripped, it equals or starts with one of the
fixed vocabulary words; "Education" and "Education Background" are headers,
a 55-character sentence containing "education" mid-sentence is not. -/
theorem C4_section_header_iff :
    (∀ line : Chars, is_section_header line = true ↔
      (line.length ≤ 50 ∧ ∃ k ∈ sectionKeywords,
        k = pyStrip (toLowerL line) ∨
          k.isPrefixOf (pyStrip (toLowerL line)) = true)) ∧
    is_section_header ("Education".toList) = true ∧
    is_section_header ("Education Background".toList) = true ∧
    ("This sentence talks about education in the middle part.".toList).length = 55 ∧
    containsSub ("This sentence talks about education in the middle part.".toList)
      ("education".toList) = true ∧
    is_section_header
      ("This sentence talks about education in the middle part.".toList) = false := by
  refine ⟨?_, by decide, by decide, by decide, by decide, by decide⟩
  intro line
  rw [is_section_header]
  by_cases hlen : line.length > 50
  · rw [if_pos hlen]
    simp only [Bool.false_eq_true, false_iff, not_and]
    intro hle
    omega
  · rw [if_neg hlen]
    simp only [List.any_eq_true, Bool.or_eq_true, beq_iff_eq]
    constructor
    · rintro ⟨k, hk, hor⟩
      exact ⟨Nat.le_of_not_lt hlen, k, hk, hor⟩
    · rintro ⟨-, k, hk, hor⟩
      exact ⟨k, hk, hor⟩

/-! ## Experience extraction helpers
(advanced_resume_parser.py lines 233-315, 317-367, 412-497, 619-631) -/

/-- Python lowercase cased character: ASCII lowercase, plus 'ï' (U+00EF, a
lowercase letter, the one non-ASCII letter in the source's constants). -/
def py_lower (c : Char) : Bool := c.isLower || c = 'ï'

/-- Python cased character (ASCII letters plus 'ï'). -/
def py_cased (c : Char) : Bool := c.isAlpha || c = 'ï'

/-- Python `str.istitle()`: uppercase cased characters may only follow
uncased characters, lowercase only cased ones, and at least one cased
character must occur. -/
def py_istitle_go : Bool → Bool → Chars → Bool
  | _, seen, [] => seen
  | prevCased, seen, c :: rest =>
    if c.isUpper then
      if prevCased then false else py_istitle_go true true rest
    else if py_lower c then
      if prevCased then py_istitle_go true true rest else false
    else py_istitle_go false seen rest

def py_istitle (l : Chars) : Bool := py_istitle_go false false l

/-- Python `str.isupper()`: at least one cased character and no lowercase
cased character. -/
def py_isupper (l : Chars) : Bool :=
  l.any py_cased && !(l.any py_lower)

/-- `_looks_like_company_or_role`: title case or upper case, shorter than
100 characters, not bullet-prefixed. -/
def looks_like_company_or_role (line : Chars) : Bool :=
  (py_istitle line || py_isupper line) && line.length < 100 &&
    !(("•".toList).isPrefixOf line)

/-- `_strip_bullet`: `re.sub(r'^[\s•\-–—*●]+', '', s)` (with the
`if not s` guard). -/
def strip_bullet (l : Chars) : Chars :=
  if l = [] then l
  else l.dropWhile (fun c =>
    isPySpace c || c = '•' || c = '-' || c = '–' || c = '—' || c = '*' || c = '●')

/-! ### `_contains_date_range`: the three date-signature regexes -/

def four_digits : Chars → Bool
  | d1 :: d2 :: d3 :: d4 :: _ => d1.isDigit && d2.isDigit && d3.isDigit && d4.isDigit
  | _ => false

/-- Is there a `\b(19|20)\d{2}\b` match in the text before any newline
(`.` does not match newlines)?  Used for the second year of pattern
`\b(19|20)\d{2}\b.*\b(19|20)\d{2}\b`. -/
def second_year_from : Nat → Option Char → Chars → Bool
  | _, _, [] => false
  | 0, _, _ => false
  | fuel + 1, prev, c1 :: rest =>
    if c1 = '\n' then false
    else if boundaryOk prev then
      match rest with
      | c2 :: c3 :: c4 :: rest2 =>
        if year_cond c1 c2 c3 c4 rest2 then true
        else second_year_from fuel (some c1) rest
      | _ => second_year_from fuel (some c1) rest
    else second_year_from fuel (some c1) rest

/-- `re.search(r'\b(19|20)\d{2}\b.*\b(19|20)\d{2}\b', line)`: some year
match followed by another with no newline between them. -/
def has_year_pair : Nat → Option Char → Chars → Bool
  | _, _, [] => false
  | 0, _, _ => false
  | fuel + 1, prev, c1 :: rest =>
    if boundaryOk prev then
      match rest with
      | c2 :: c3 :: c4 :: rest2 =>
        if year_cond c1 c2 c3 c4 rest2 then
          second_year_from rest2.length (some c4) rest2 ||
            has_year_pair fuel (some c4) rest2
        else has_year_pair fuel (some c1) rest
      | _ => has_year_pair fuel (some c1) rest
    else has_year_pair fuel (some c1) rest

/-- Case-insensitive three-letter month abbreviation. -/
def month3 (c1 c2 c3 : Char) : Bool :=
  (eq_ci 'j' c1 && eq_ci 'a' c2 && eq_ci 'n' c3) ||
  (eq_ci 'f' c1 && eq_ci 'e' c2 && eq_ci 'b' c3) ||
  (eq_ci 'm' c1 && eq_ci 'a' c2 && eq_ci 'r' c3) ||
  (eq_ci 'a' c1 && eq_ci 'p' c2 && eq_ci 'r' c3) ||
  (eq_ci 'm' c1 && eq_ci 'a' c2 && eq_ci 'y' c3) ||
  (eq_ci 'j' c1 && eq_ci 'u' c2 && eq_ci 'n' c3) ||
  (eq_ci 'j' c1 && eq_ci 'u' c2 && eq_ci 'l' c3) ||
  (eq_ci 'a' c1 && eq_ci 'u' c2 && eq_ci 'g' c3) ||
  (eq_ci 's' c1 && eq_ci 'e' c2 && eq_ci 'p' c3) ||
  (eq_ci 'o' c1 && eq_ci 'c' c2 && eq_ci 't' c3) ||
  (eq_ci 'n' c1 && eq_ci 'o' c2 && eq_ci 'v' c3) ||
  (eq_ci 'd' c1 && eq_ci 'e' c2 && eq_ci 'c' c3)

/-- Does `(Jan|..|Dec)\w*\s+\d{4}` match at the head of `l`?  (`\w*` and
`\s+` are greedy; the character classes are disjoint, so no backtracking.) -/
def month_year_at (l : Chars) : Bool :=
  match l with
  | c1 :: c2 :: c3 :: rest =>
    month3 c1 c2 c3 &&
      (match rest.dropWhile isWordChar with
       | c :: r => isPySpace c && four_digits ((c :: r).dropWhile isPySpace)
       | [] => false)
  | _ => false

/-- `re.search(r'\b(Jan|..|Dec)\w*\s+\d{4}', line, IGNORECASE)`. -/
def has_month_year : Option Char → Chars → Bool
  | _, [] => false
  | prev, c :: rest =>
    (boundaryOk prev && month_year_at (c :: rest)) || has_month_year (some c) rest

/-- Does `\d{1,2}/\d{4}` match at the head of `l`? -/
def mmyyyy_at : Chars → Bool
  | d1 :: '/' :: r => d1.isDigit && four_digits r
  | d1 :: d2 :: '/' :: r => d1.isDigit && d2.isDigit && four_digits r
  | _ => false

/-- `re.search(r'\d{1,2}/\d{4}', line)`. -/
def has_mmyyyy : Chars → Bool
  | [] => false
  | c :: rest => mmyyyy_at (c :: rest) || has_mmyyyy rest

/-- `_contains_date_range`: any of the three date patterns matches. -/
def contains_date_range (line : Chars) : Bool :=
  has_year_pair line.length none line || has_month_year none line || has_mmyyyy line

/-! ### `_strip_location` -/

/-- One locality keyword (city|state|india|usa|uk) matched case-insensitively
at the head of `l` with a trailing word boundary; returns the remainder. -/
def loc_kw_at (l : Chars) : Option Chars :=
  match word_ci ("city".toList) l with
  | some rem => if boundaryAfter rem then some rem else none
  | none =>
  match word_ci ("state".toList) l with
  | some rem => if boundaryAfter rem then some rem else none
  | none =>
  match word_ci ("india".toList) l with
  | some rem => if boundaryAfter rem then some rem else none
  | none =>
  match word_ci ("usa".toList) l with
  | some rem => if boundaryAfter rem then some rem else none
  | none =>
  match word_ci ("uk".toList) l with
  | some rem => if boundaryAfter rem then some rem else none
  | none => none

/-- `.*$` on the remainder after the keyword: no newline may remain except a
single final one. -/
def rest_ok (rest : Chars) : Bool := !(rest.dropLast.contains '\n')

/-- Scan the comma-free segment after a comma for a bounded locality keyword
(the `[^,]*\b(?:city|state|india|usa|uk)\b.*$` part of the pattern). -/
def loc_seg_scan : Option Char → Chars → Bool
  | _, [] => false
  | prev, c :: rest =>
    if c = ',' then false
    else
      (boundaryOk prev &&
        (match loc_kw_at (c :: rest) with
         | some rem => rest_ok rem
         | none => false)) || loc_seg_scan (some c) rest

/-- `re.sub(r',[^,]*\b(?:city|state|india|usa|uk)\b.*$', '', s, IGNORECASE)`:
cut the string at the leftmost comma whose following comma-free segment
contains a bounded locality keyword. -/
def loc_sub : Chars → Chars
  | [] => []
  | c :: rest =>
    if c = ',' ∧ loc_seg_scan (some ',') rest = true then []
    else c :: loc_sub rest

/-- `_strip_location` (advanced_resume_parser.py lines 420-425). -/
def strip_location (l : Chars) : Chars :=
  if l = [] then l else pyStrip (loc_sub l)

/-! ### `_parse_company_role_line` (advanced_resume_parser.py lines 317-367) -/

def companyKw7 : List Chars :=
  (["inc", "corp", "ltd", "llc", "company", "technologies", "systems"] :
    List String).map String.toList

def companyKw8 : List Chars := companyKw7 ++ ["solutions".toList]

/-- `any(word in s.lower() for word in kws)`. -/
def has_company_kw (kws : List Chars) (s : Chars) : Bool :=
  kws.any (fun kw => containsSub (toLowerL s) kw)

/-- Match `\s+[-–]\s+` at the head of `l`; on success return the remainder
after the trailing whitespace run. -/
def dash_split_at (l : Chars) : Option Chars :=
  match l with
  | c :: _ =>
    if isPySpace c then
      match l.dropWhile isPySpace with
      | d :: r2 =>
        if d = '-' ∨ d = '–' then
          match r2 with
          | s :: _ => if isPySpace s then some (r2.dropWhile isPySpace) else none
          | [] => none
        else none
      | [] => none
    else none
  | [] => none

/-- `re.split(r'\s+[-–]\s+', line, maxsplit=1)` when a match exists:
the text before the leftmost match and the text after it. -/
def split_dash : Chars → Option (Chars × Chars)
  | [] => none
  | c :: rest =>
    match dash_split_at (c :: rest) with
    | some post => some ([], post)
    | none =>
      match split_dash rest with
      | some (pre, post) => some (c :: pre, post)
      | none => none

/-- Match `\s+at\s+` (IGNORECASE) at the head of `l`. -/
def at_split_at (l : Chars) : Option Chars :=
  match l with
  | c :: _ =>
    if isPySpace c then
      match l.dropWhile isPySpace with
      | a :: t :: r2 =>
        if eq_ci 'a' a ∧ eq_ci 't' t then
          match r2 with
          | s :: _ => if isPySpace s then some (r2.dropWhile isPySpace) else none
          | [] => none
        else none
      | _ => none
    else none
  | [] => none

/-- `re.split(r'\s+at\s+', line, IGNORECASE, maxsplit=1)` when a match
exists. -/
def split_at_word : Chars → Option (Chars × Chars)
  | [] => none
  | c :: rest =>
    match at_split_at (c :: rest) with
    | some post => some ([], post)
    | none =>
      match split_at_word rest with
      | some (pre, post) => some (c :: pre, post)
      | none => none

/-- `str.split(sep, 1)` at the first occurrence of a separator character. -/
def split_char (sep : Char) : Chars → Option (Chars × Chars)
  | [] => none
  | c :: rest =>
    if c = sep then some ([], rest)
    else
      match split_char sep rest with
      | some (pre, post) => some (c :: pre, post)
      | none => none

/-- `_parse_company_role_line`: returns (company, role). -/
def parse_company_role_line (line : Chars) : Chars × Chars :=
  let fallback :=
    if has_company_kw companyKw8 line then (pyStrip line, ([] : Chars))
    else (([] : Chars), pyStrip line)
  if containsSub line (" - ".toList) || containsSub line (" – ".toList) then
    match split_dash line with
    | some (p1, p2) =>
      if has_company_kw companyKw7 p1 then (pyStrip p1, pyStrip p2)
      else (pyStrip p2, pyStrip p1)
    | none => fallback
  else if containsSub (toLowerL line) (" at ".toList) then
    match split_at_word line with
    | some (p1, p2) => (pyStrip p2, pyStrip p1)
    | none => fallback
  else if containsSub line ("|".toList) then
    match split_char '|' line with
    | some (p1, p2) => (pyStrip p2, pyStrip p1)
    | none => fallback
  else if containsSub line (",".toList) then
    match split_char ',' line with
    | some (p1, p2) =>
      if has_company_kw companyKw7 p1 then (pyStrip p1, pyStrip p2)
      else (pyStrip p2, pyStrip p1)
    | none => fallback
  else fallback

/-! ### `_extract_role_from_dated_line` (advanced_resume_parser.py 484-497) -/

/-- Match `(Jan|..|Dec)[a-zA-Z]*\s+(?:19|20)\d{2}\b` at the head of `l`;
return the last matched character and the remainder. -/
def monthyear_match (l : Chars) : Option (Char × Chars) :=
  match l with
  | c1 :: c2 :: c3 :: rest =>
    if month3 c1 c2 c3 then
      match rest.dropWhile Char.isAlpha with
      | s :: r1 =>
        if isPySpace s then
          match (s :: r1).dropWhile isPySpace with
          | d1 :: d2 :: d3 :: d4 :: r3 =>
            if year_cond d1 d2 d3 d4 r3 then some (d4, r3) else none
          | _ => none
        else none
      | [] => none
    else none
  | _ => none

/-- `re.sub(r'\b(Jan|..|Dec)[a-zA-Z]*\s+(?:19|20)\d{2}\b', '', t, IGNORECASE)`. -/
def sub_monthyear_go : Nat → Option Char → Chars → Chars
  | _, _, [] => []
  | 0, _, l => l
  | fuel + 1, prev, c :: rest =>
    if boundaryOk prev then
      match monthyear_match (c :: rest) with
      | some (lastc, rem) => sub_monthyear_go fuel (some lastc) rem
      | none => c :: sub_monthyear_go fuel (some c) rest
    else c :: sub_monthyear_go fuel (some c) rest

/-- `re.sub(r'\b(?:19|20)\d{2}\b', '', t)`. -/
def sub_years_go : Nat → Option Char → Chars → Chars
  | _, _, [] => []
  | 0, _, l => l
  | fuel + 1, prev, c1 :: rest =>
    if boundaryOk prev then
      match rest with
      | c2 :: c3 :: c4 :: rest2 =>
        if year_cond c1 c2 c3 c4 rest2 then sub_years_go fuel (some c4) rest2
        else c1 :: sub_years_go fuel (some c1) rest
      | _ => c1 :: sub_years_go fuel (some c1) rest
    else c1 :: sub_years_go fuel (some c1) rest

def dash_tok (c : Char) : Bool := c = '–' || c = '—' || c = '-'

def prev_word : Option Char → Bool
  | none => false
  | some p => isWordChar p

def head_word : Chars → Bool
  | [] => false
  | c :: _ => isWordChar c

/-- `re.sub(r'\b(to|–|—|-)\b', '', t, IGNORECASE)`: for `to` the boundaries
sit against word characters; for a dash token, `\b` requires a word
character immediately before and after. -/
def sub_connword_go : Nat → Option Char → Chars → Chars
  | _, _, [] => []
  | 0, _, l => l
  | fuel + 1, prev, c :: rest =>
    if eq_ci 't' c ∧ boundaryOk prev = true then
      match rest with
      | c2 :: rest2 =>
        if eq_ci 'o' c2 ∧ boundaryAfter rest2 = true then
          sub_connword_go fuel (some c2) rest2
        else c :: sub_connword_go fuel (some c) rest
      | [] => [c]
    else if dash_tok c ∧ prev_word prev = true ∧ head_word rest = true then
      sub_connword_go fuel (some c) rest
    else c :: sub_connword_go fuel (some c) rest

/-- `_extract_role_from_dated_line`: strip dates, connectors and
current/present from a dated line, collapse whitespace, trim `' ,;:- '`. -/
def extract_role_from_dated_line (s : Chars) : Chars :=
  if s = [] then []
  else
    let t0 := strip_bullet (normalize_text s)
    let t1 := sub_monthyear_go t0.length none t0
    let t2 := sub_years_go t1.length none t1
    let t3 := sub_connword_go t2.length none t2
    let t4 := sub_cp [] none t3
    pyStripSet (" ,;:- ".toList) (collapse_ws false t4)

/-! ### `_extract_experience` (advanced_resume_parser.py lines 233-315) -/

structure ExperienceEntry where
  company : Chars
  role : Chars
  title : Chars
  duration : Chars
  details : List Chars
deriving DecidableEq

/-- The detail-collection loop stops at a date line, a company/role-looking
line, or a section header. -/
def detail_stop (l : Chars) : Bool :=
  contains_date_range l || looks_like_company_or_role l || is_section_header l

/-- The index-driven scan of `_extract_experience`; the fuel dominates the
number of loop iterations (the index strictly increases each iteration). -/
def extract_experience_go (cy : Chars) (lines : List Chars) :
    Nat → Nat → List ExperienceEntry
  | 0, _ => []
  | fuel + 1, i =>
    if i < lines.length then
      let line := lines.getD i []
      if contains_date_range line then
        let duration := clean_years cy line
        let j := i + 1 + ((lines.drop (i + 1)).takeWhile
          (fun l => l.isEmpty || is_section_header l)).length
        let title_line := lines.getD j []
        let company_line := strip_bullet title_line
        let cr := parse_company_role_line company_line
        let company0 :=
          if cr.1 = [] ∧ company_line ≠ [] then strip_location company_line else cr.1
        let rfd := extract_role_from_dated_line line
        let role0 := if rfd ≠ [] then rfd else cr.2
        let company := strip_location company0
        let role := strip_location role0
        let d := (lines.drop (j + 1)).takeWhile (fun l => !detail_stop l)
        ⟨company, role, title_line, duration, d⟩ ::
          extract_experience_go cy lines fuel (j + 1 + d.length)
      else if looks_like_company_or_role line then
        let cr := parse_company_role_line line
        let company := strip_location cr.1
        let role := strip_location cr.2
        let hasd := decide (i + 1 < lines.length) &&
          contains_date_range (lines.getD (i + 1) [])
        let duration := if hasd then clean_years cy (lines.getD (i + 1) []) else []
        let j := if hasd then i + 2 else i + 1
        let d := (lines.drop j).takeWhile (fun l => !detail_stop l)
        ⟨company, role, line, duration, d⟩ ::
          extract_experience_go cy lines fuel (j + d.length)
      else extract_experience_go cy lines fuel (i + 1)
    else []

/-- `_extract_experience` applied to the lines of the located experience
section: filter out blank lines, normalize, then run the two-pattern scan. -/
def extract_experience (cy : Chars) (sectionLines : List Chars) :
    List ExperienceEntry :=
  let lines := (sectionLines.filter
    (fun l => !l.isEmpty && !(pyStrip l).isEmpty)).map normalize_text
  extract_experience_go cy lines (lines.length + 1) 0

def C5_lines : List Chars :=
  (["2020-2023", "Senior Engineer, Tech Corp", "- Led team", "- Shipped X"] :
    List String).map String.toList

/-- Claim C5 counterexample: on the synthetic experience-section lines the
extractor yields two entries, not one — the bullet "- Shipped X" is
title-cased, so it stops detail collection and starts a second entry. -/
theorem C5_counterexample :
    (extract_experience ("2026".toList) C5_lines).length = 2 := by decide

/-- The extraction result on the synthetic lines, with the duration left as
the (year-parameterized) cleaning call: everything except that call is
independent of the current year, so this is definitional. -/
theorem C5_extraction_param (cy : Chars) :
    extract_experience cy C5_lines =
      [⟨"Tech Corp".toList, "Senior Engineer".toList,
        "Senior Engineer, Tech Corp".toList,
        clean_years cy ("2020-2023".toList), ["- Led team".toList]⟩,
       ⟨[], "- Shipped X".toList, "- Shipped X".toList, [], []⟩] := rfl

/-- Claim C5 (amended): for every current-year string, on the synthetic
lines the extractor yields two entries: the first with company "Tech Corp",
role "Senior Engineer" (comma-split heuristic), duration "2020-2023" and
details ["- Led team"] only, and a second degenerate entry with role
"- Shipped X" (title-cased bullet, so it terminates the first entry's
details and opens a new entry). -/
theorem C5_extraction (cy : Chars) :
    extract_experience cy C5_lines =
      [⟨"Tech Corp".toList, "Senior Engineer".toList,
        "Senior Engineer, Tech Corp".toList, "2020-2023".toList,
        ["- Led team".toList]⟩,
       ⟨[], "- Shipped X".toList, "- Shipped X".toList, [], []⟩] := by
  have hdur : clean_years cy ("2020-2023".toList) = "2020-2023".toList :=
    clean_years_fix_pair
      ⟨'2', '0', '2', '0', rfl, .inr ⟨rfl, rfl⟩, by decide, by decide⟩
      ⟨'2', '0', '2', '3', rfl, .inr ⟨rfl, rfl⟩, by decide, by decide⟩
  rw [C5_extraction_param cy, hdur]

/-! ## `_create_replacement_map` (word_formatter.py lines 687-741) -/

structure Candidate where
  name : Chars
  email : Chars
  phone : Chars
  address : Chars
  linkedin : Chars
  dob : Chars
deriving DecidableEq

def apos : Char := '\''

def nameTokens : List Chars :=
  ["[NAME]".toList, "[CANDIDATE NAME]".toList, "<CANDIDATE NAME>".toList,
   "<Candidate".toList ++ apos :: "s full name>".toList,
   "<Candidate Name>".toList, "<Name>".toList, "Your Name".toList,
   "CANDIDATE NAME".toList]

def emailTokens : List Chars :=
  ["[EMAIL]".toList, "[Email]".toList, "<EMAIL>".toList, "<Email>".toList,
   "<Candidate Email>".toList]

def phoneTokens : List Chars :=
  ["[PHONE]".toList, "[Phone]".toList, "<PHONE>".toList, "<Phone>".toList,
   "<Candidate Phone>".toList]

def addressTokens : List Chars :=
  ["[ADDRESS]".toList, "[Address]".toList, "<ADDRESS>".toList, "<Address>".toList,
   "Your Address".toList]

def linkedinTokens : List Chars :=
  ["[LINKEDIN]".toList, "[LinkedIn]".toList, "<LINKEDIN>".toList,
   "<LinkedIn>".toList, "linkedin.com/in/username".toList]

def dobTokens : List Chars :=
  ["[DOB]".toList, "[Date of Birth]".toList, "<DOB>".toList]

/-- One `if self.resume_data.get(field):` guarded token group: registered
only when the field value is truthy (a non-empty string). -/
def condGroup (field : Chars) (toks : List Chars) : List (Chars × Chars) :=
  if field = [] then [] else toks.map (fun t => (t, field))

/-- `_create_replacement_map`: the six conditional token groups, in source
(insertion) order. -/
def create_replacement_map (r : Candidate) : List (Chars × Chars) :=
  condGroup r.name nameTokens ++ condGroup r.email emailTokens ++
  condGroup r.phone phoneTokens ++ condGroup r.address addressTokens ++
  condGroup r.linkedin linkedinTokens ++ condGroup r.dob dobTokens

def map_keys (m : List (Chars × Chars)) : List Chars := m.map Prod.fst

/-! ## `_replace_in_paragraph` and the literal replacement passes
(word_formatter.py lines 140-255, 743-781) -/

/-- A paragraph is the list of its runs' texts. -/
abbrev Para := List Chars

/-- `paragraph.text`: concatenation of the run texts. -/
def para_text (p : Para) : Chars := p.foldr (fun r acc => r ++ acc) []

/-- Case-insensitive literal match of `term` at the head of `l`. -/
def ci_at (term l : Chars) : Bool := (toLowerL term).isPrefixOf (toLowerL l)

/-- `re.compile(re.escape(term), IGNORECASE).sub(repl, text)`: replace every
case-insensitive occurrence of the literal `term`, leftmost-first,
non-overlapping.  Fuel is the text length; every registered token is
non-empty, so each match consumes at least one character. -/
def replace_ci_go (term repl : Chars) : Nat → Chars → Chars
  | _, [] => []
  | 0, l => l
  | fuel + 1, c :: rest =>
    if 0 < term.length ∧ ci_at term (c :: rest) = true then
      repl ++ replace_ci_go term repl fuel ((c :: rest).drop term.length)
    else c :: replace_ci_go term repl fuel rest

def replace_ci (term repl l : Chars) : Chars := replace_ci_go term repl l.length l

/-- `_replace_in_paragraph`: first pass replaces inside individual runs
(counting each run that contained the term); if no run contained it but the
concatenated paragraph text does (the token straddles runs), every run is
cleared and the rewritten full text goes into the first run. -/
def replace_in_paragraph (p : Para) (term repl : Chars) : Para × Nat :=
  let pass1 := p.map (fun r =>
    if containsCI r term then (replace_ci term repl r, 1) else (r, 0))
  let n := (pass1.map Prod.snd).sum
  if n ≠ 0 then (pass1.map Prod.fst, n)
  else if containsCI (para_text p) term then
    let full := para_text p
    let newText := replace_ci term repl full
    if newText ≠ full then
      match p with
      | [] => ([newText], 1)
      | _ :: rs => (newText :: rs.map (fun _ => ([] : Chars)), 1)
    else (p, 0)
  else (p, 0)

/-- One paragraph's literal-token pass: for each map entry in order, if the
paragraph text contains the token case-insensitively, run the replacement
(this is the inner `for key, value in replacements.items()` loop). -/
def apply_map_para (m : List (Chars × Chars)) (p : Para) : Para :=
  m.foldl (fun p kv =>
    if containsCI (para_text p) kv.1 then (replace_in_paragraph p kv.1 kv.2).1 else p) p

/-- The body-paragraph loop additionally skips paragraphs whose text strips
to empty (`if not paragraph.text.strip(): continue`). -/
def body_para_step (m : List (Chars × Chars)) (p : Para) : Para :=
  if pyStrip (para_text p) = [] then p else apply_map_para m p

structure Cell where
  paras : List Para
deriving DecidableEq

structure Table where
  rows : List (List Cell)
deriving DecidableEq

structure Doc where
  paragraphs : List Para
  tables : List Table
  headerParas : List Para
  footerParas : List Para
deriving DecidableEq

/-- python-docx `cell.text`: the cell's paragraph texts joined by newlines. -/
def cell_text (c : Cell) : Chars :=
  List.intercalate ['\n'] (c.paras.map para_text)

/-! ## `_is_skills_table` (word_formatter.py lines 1037-1056) and the table
scan of `_format_docx_file` (lines 221-238) -/

def skillsKeywords : List Chars :=
  (["skill", "skills", "technology", "competency"] : List String).map String.toList

def yearsKeywords : List Chars :=
  (["years", "experience", "years used", "years of experience"] :
    List String).map String.toList

def lastUsedKeywords : List Chars :=
  (["last used", "last", "recent", "most recent"] : List String).map String.toList

/-- First-row cell texts, stripped then lowercased. -/
def header_texts (t : Table) : List Chars :=
  (t.rows.headD []).map (fun c => toLowerL (pyStrip (cell_text c)))

def has_kw_col (kws : List Chars) (t : Table) : Bool :=
  (header_texts t).any (fun h => kws.any (fun kw => containsSub h kw))

/-- `_is_skills_table`: needs at least a header plus one data row, a
skill-family header cell, and a years-family or last-used-family header
cell. -/
def is_skills_table (t : Table) : Bool :=
  if t.rows.length < 2 then false
  else
    has_kw_col skillsKeywords t &&
      (has_kw_col yearsKeywords t || has_kw_col lastUsedKeywords t)

/-- The per-table step of the formatter's table scan: a detected skills
table is filled (`_fill_skills_table`, abstracted here as `fill`); any other
table undergoes the literal-token replacement on every cell paragraph. -/
def table_step (fill : Table → Table) (m : List (Chars × Chars)) (t : Table) :
    Table :=
  if is_skills_table t then fill t
  else ⟨t.rows.map (fun row => row.map (fun c => ⟨c.paras.map (apply_map_para m)⟩))⟩

/-- The literal-token replacement passes of `_format_docx_file`: body
paragraphs (skipping whitespace-only ones), tables (skills tables being
filled instead), header and footer paragraphs.  The regex-placeholder
passes are separate and out of scope here. -/
def apply_literal_doc (fill : Table → Table) (m : List (Chars × Chars))
    (d : Doc) : Doc :=
  ⟨d.paragraphs.map (body_para_step m),
   d.tables.map (table_step fill m),
   d.headerParas.map (apply_map_para m),
   d.footerParas.map (apply_map_para m)⟩

/-! ## Claims C2, C3, C6, C10 -/

theorem condGroup_keys {field : Chars} {toks : List Chars} {t : Chars} :
    t ∈ (condGroup field toks).map Prod.fst ↔ field ≠ [] ∧ t ∈ toks := by
  rw [condGroup]
  by_cases h : field = []
  · simp [h]
  · simp [h, List.map_map, Function.comp]

theorem map_keys_cases {r : Candidate} {t : Chars}
    (h : t ∈ map_keys (create_replacement_map r)) :
    (r.name ≠ [] ∧ t ∈ nameTokens) ∨ (r.email ≠ [] ∧ t ∈ emailTokens) ∨
    (r.phone ≠ [] ∧ t ∈ phoneTokens) ∨ (r.address ≠ [] ∧ t ∈ addressTokens) ∨
    (r.linkedin ≠ [] ∧ t ∈ linkedinTokens) ∨ (r.dob ≠ [] ∧ t ∈ dobTokens) := by
  simp only [map_keys, create_replacement_map, List.map_append,
    List.mem_append] at h
  rcases h with ((((h | h) | h) | h) | h) | h
  · exact .inl (condGroup_keys.mp h)
  · exact .inr (.inl (condGroup_keys.mp h))
  · exact .inr (.inr (.inl (condGroup_keys.mp h)))
  · exact .inr (.inr (.inr (.inl (condGroup_keys.mp h))))
  · exact .inr (.inr (.inr (.inr (.inl (condGroup_keys.mp h)))))
  · exact .inr (.inr (.inr (.inr (.inr (condGroup_keys.mp h)))))

theorem apply_map_para_nil (p : Para) : apply_map_para [] p = p := rfl

theorem apply_literal_doc_nil (d : Doc) :
    apply_literal_doc (fun t => t) [] d = d := by
  have hfn : apply_map_para ([] : List (Chars × Chars)) = fun p => p := rfl
  have hp : ∀ p : Para, body_para_step [] p = p := fun p => by
    rw [body_para_step, apply_map_para_nil, ite_self]
  have ht : ∀ t : Table, table_step (fun t => t) [] t = t := fun t => by
    rw [table_step]
    have hrows : t.rows.map (fun row => row.map (fun c =>
        Cell.mk (c.paras.map (apply_map_para [])))) = t.rows := by
      rw [hfn]
      simp
    rw [hrows, ite_self]
  rw [apply_literal_doc, hfn]
  have h1 : d.paragraphs.map (body_para_step []) = d.paragraphs := by
    have : body_para_step ([] : List (Chars × Chars)) = fun p => p := funext hp
    rw [this]
    simp
  have h2 : d.tables.map (table_step (fun t => t) []) = d.tables := by
    have : table_step (fun t => t) ([] : List (Chars × Chars)) = fun t => t :=
      funext ht
    rw [this]
    simp
  rw [h1, h2]
  simp

/-- Claim C2: each token group is registered in the literal replacement map
only when the corresponding candidate field is non-empty, and for a record
with all identity fields empty the map is empty and the whole literal
replacement pass is the identity on any document (and, being a total
function, completes). -/
theorem C2_replacement_map_guard (r : Candidate) :
    (r.name = [] → ∀ t ∈ nameTokens, t ∉ map_keys (create_replacement_map r)) ∧
    (r.email = [] → ∀ t ∈ emailTokens, t ∉ map_keys (create_replacement_map r)) ∧
    (r.phone = [] → ∀ t ∈ phoneTokens, t ∉ map_keys (create_replacement_map r)) ∧
    (r.address = [] → ∀ t ∈ addressTokens,
      t ∉ map_keys (create_replacement_map r)) ∧
    (r.linkedin = [] → ∀ t ∈ linkedinTokens,
      t ∉ map_keys (create_replacement_map r)) ∧
    (r.dob = [] → ∀ t ∈ dobTokens, t ∉ map_keys (create_replacement_map r)) ∧
    (r.name = [] ∧ r.email = [] ∧ r.phone = [] ∧ r.address = [] ∧
        r.linkedin = [] ∧ r.dob = [] →
      create_replacement_map r = [] ∧
      ∀ d : Doc, apply_literal_doc (fun t => t) (create_replacement_map r) d = d) := by
  have hdN : ∀ t ∈ nameTokens, t ∉ emailTokens ∧ t ∉ phoneTokens ∧
      t ∉ addressTokens ∧ t ∉ linkedinTokens ∧ t ∉ dobTokens := by decide
  have hdE : ∀ t ∈ emailTokens, t ∉ nameTokens ∧ t ∉ phoneTokens ∧
      t ∉ addressTokens ∧ t ∉ linkedinTokens ∧ t ∉ dobTokens := by decide
  have hdP : ∀ t ∈ phoneTokens, t ∉ nameTokens ∧ t ∉ emailTokens ∧
      t ∉ addressTokens ∧ t ∉ linkedinTokens ∧ t ∉ dobTokens := by decide
  have hdA : ∀ t ∈ addressTokens, t ∉ nameTokens ∧ t ∉ emailTokens ∧
      t ∉ phoneTokens ∧ t ∉ linkedinTokens ∧ t ∉ dobTokens := by decide
  have hdL : ∀ t ∈ linkedinTokens, t ∉ nameTokens ∧ t ∉ emailTokens ∧
      t ∉ phoneTokens ∧ t ∉ addressTokens ∧ t ∉ dobTokens := by decide
  have hdD : ∀ t ∈ dobTokens, t ∉ nameTokens ∧ t ∉ emailTokens ∧
      t ∉ phoneTokens ∧ t ∉ addressTokens ∧ t ∉ linkedinTokens := by decide
  refine ⟨?_, ?_, ?_, ?_, ?_, ?_, ?_⟩
  · intro hf t ht hmem
    have hd := hdN t ht
    rcases map_keys_cases hmem with ⟨hne, hm⟩ | ⟨_, hm⟩ | ⟨_, hm⟩ |
      ⟨_, hm⟩ | ⟨_, hm⟩ | ⟨_, hm⟩
    · exact hne hf
    · exact hd.1 hm
    · exact hd.2.1 hm
    · exact hd.2.2.1 hm
    · exact hd.2.2.2.1 hm
    · exact hd.2.2.2.2 hm
  · intro hf t ht hmem
    have hd := hdE t ht
    rcases map_keys_cases hmem with ⟨_, hm⟩ | ⟨hne, hm⟩ | ⟨_, hm⟩ |
      ⟨_, hm⟩ | ⟨_, hm⟩ | ⟨_, hm⟩
    · exact hd.1 hm
    · exact hne hf
    · exact hd.2.1 hm
    · exact hd.2.2.1 hm
    · exact hd.2.2.2.1 hm
    · exact hd.2.2.2.2 hm
  · intro hf t ht hmem
    have hd := hdP t ht
    rcases map_keys_cases hmem with ⟨_, hm⟩ | ⟨_, hm⟩ | ⟨hne, hm⟩ |
      ⟨_, hm⟩ | ⟨_, hm⟩ | ⟨_, hm⟩
    · exact hd.1 hm
    · exact hd.2.1 hm
    · exact hne hf
    · exact hd.2.2.1 hm
    · exact hd.2.2.2.1 hm
    · exact hd.2.2.2.2 hm
  · intro hf t ht hmem
    have hd := hdA t ht
    rcases map_keys_cases hmem with ⟨_, hm⟩ | ⟨_, hm⟩ | ⟨_, hm⟩ |
      ⟨hne, hm⟩ | ⟨_, hm⟩ | ⟨_, hm⟩
    · exact hd.1 hm
    · exact hd.2.1 hm
    · exact hd.2.2.1 hm
    · exact hne hf
    · exact hd.2.2.2.1 hm
    · exact hd.2.2.2.2 hm
  · intro hf t ht hmem
    have hd := hdL t ht
    rcases map_keys_cases hmem with ⟨_, hm⟩ | ⟨_, hm⟩ | ⟨_, hm⟩ |
      ⟨_, hm⟩ | ⟨hne, hm⟩ | ⟨_, hm⟩
    · exact hd.1 hm
    · exact hd.2.1 hm
    · exact hd.2.2.1 hm
    · exact hd.2.2.2.1 hm
    · exact hne hf
    · exact hd.2.2.2.2 hm
  · intro hf t ht hmem
    have hd := hdD t ht
    rcases map_keys_cases hmem with ⟨_, hm⟩ | ⟨_, hm⟩ | ⟨_, hm⟩ |
      ⟨_, hm⟩ | ⟨_, hm⟩ | ⟨hne, hm⟩
    · exact hd.1 hm
    · exact hd.2.1 hm
    · exact hd.2.2.1 hm
    · exact hd.2.2.2.1 hm
    · exact hd.2.2.2.2 hm
    · exact hne hf
  · rintro ⟨h1, h2, h3, h4, h5, h6⟩
    have hmap : create_replacement_map r = [] := by
      rw [create_replacement_map, condGroup, if_pos h1, condGroup, if_pos h2,
        condGroup, if_pos h3, condGroup, if_pos h4, condGroup, if_pos h5,
        condGroup, if_pos h6]
      rfl
    exact ⟨hmap, fun d => by rw [hmap]; exact apply_literal_doc_nil d⟩

/-- Witness for C2: all-empty record, a concrete token and a concrete
document. -/
theorem C2_witness :
    "[EMAIL]".toList ∉
      map_keys (create_replacement_map ⟨[], [], [], [], [], []⟩) ∧
    apply_literal_doc (fun t => t)
      (create_replacement_map ⟨[], [], [], [], [], []⟩)
      ⟨[["Contact: [EMAIL]".toList]], [], [], []⟩ =
      ⟨[["Contact: [EMAIL]".toList]], [], [], []⟩ :=
  ⟨(C2_replacement_map_guard ⟨[], [], [], [], [], []⟩).2.1 rfl _ (by decide),
   ((C2_replacement_map_guard ⟨[], [], [], [], [], []⟩).2.2.2.2.2.2
     ⟨rfl, rfl, rfl, rfl, rfl, rfl⟩).2 _⟩

def C3_record : Candidate := ⟨[], "a@b.com".toList, [], [], [], []⟩

/-- Claim C3: on the paragraph "Contact: [EMAIL] or [PHONE]" with
email="a@b.com" and phone="", the literal pass replaces only the [EMAIL]
token; "[PHONE]" and all surrounding text remain verbatim. -/
theorem C3_literal_replacement_frame :
    body_para_step (create_replacement_map C3_record)
      ["Contact: [EMAIL] or [PHONE]".toList] =
      ["Contact: a@b.com or [PHONE]".toList] ∧
    containsSub (para_text (body_para_step (create_replacement_map C3_record)
      ["Contact: [EMAIL] or [PHONE]".toList])) ("[PHONE]".toList) = true :=
  ⟨by decide, by decide⟩

def cellOf (s : String) : Cell := ⟨[[s.toList]]⟩

/-- Claim C6 counterexample: a header-only table whose header has both a
skill-family and a years-family keyword is NOT treated as a skills table
(the detector requires at least two rows), refuting the claimed
"exactly when" characterization over all tables. -/
theorem C6_counterexample :
    is_skills_table ⟨[[cellOf "Skill", cellOf "Years"]]⟩ = false ∧
    has_kw_col skillsKeywords ⟨[[cellOf "Skill", cellOf "Years"]]⟩ = true ∧
    has_kw_col yearsKeywords ⟨[[cellOf "Skill", cellOf "Years"]]⟩ = true :=
  ⟨by decide, by decide, by decide⟩

/-- Claim C6 (amended): a table is detected as a skills table exactly when
it has at least two rows AND some first-row header cell contains a
skill-family keyword AND some first-row header cell contains a years-family
or last-used-family keyword; with a data row present, ["Skill","Notes"] is
not a skills table while ["Skill","Years"] is. -/
theorem C6_skills_table_detection :
    (∀ t : Table, is_skills_table t = true ↔
      (2 ≤ t.rows.length ∧ has_kw_col skillsKeywords t = true ∧
        (has_kw_col yearsKeywords t = true ∨
          has_kw_col lastUsedKeywords t = true))) ∧
    is_skills_table
      ⟨[[cellOf "Skill", cellOf "Notes"], [cellOf "Python", cellOf "x"]]⟩ =
      false ∧
    is_skills_table
      ⟨[[cellOf "Skill", cellOf "Years"], [cellOf "Python", cellOf "5"]]⟩ =
      true := by
  refine ⟨?_, by decide, by decide⟩
  intro t
  rw [is_skills_table]
  by_cases h : t.rows.length < 2
  · rw [if_pos h]
    simp only [Bool.false_eq_true, false_iff, not_and]
    intro hle
    omega
  · rw [if_neg h]
    simp only [Bool.and_eq_true, Bool.or_eq_true]
    constructor
    · rintro ⟨hs, hrest⟩
      exact ⟨Nat.le_of_not_lt h, hs, hrest⟩
    · rintro ⟨-, hs, hrest⟩
      exact ⟨hs, hrest⟩

/-- Claim C10: a table with fewer than two rows is never detected as a
skills table, so the table scan never invokes the skill-row filling on it:
whatever the filling procedure would do, the table only undergoes literal
replacement, which preserves the row count. -/
theorem C10_small_table_not_skills (t : Table) (h : t.rows.length < 2) :
    is_skills_table t = false ∧
    ∀ (fill : Table → Table) (m : List (Chars × Chars)),
      table_step fill m t =
        ⟨t.rows.map (fun row => row.map (fun c =>
          ⟨c.paras.map (apply_map_para m)⟩))⟩ ∧
      (table_step fill m t).rows.length = t.rows.length := by
  have hfalse : is_skills_table t = false := by
    rw [is_skills_table, if_pos h]
  refine ⟨hfalse, fun fill m => ?_⟩
  have hstep : table_step fill m t =
      ⟨t.rows.map (fun row => row.map (fun c =>
        ⟨c.paras.map (apply_map_para m)⟩))⟩ := by
    rw [table_step, hfalse]
    simp
  exact ⟨hstep, by rw [hstep]; simp⟩

/-- Witness for C10: a header-only skills-matrix table, an adversarial
filling function and an arbitrary map. -/
theorem C10_witness :
    is_skills_table ⟨[[cellOf "Skill", cellOf "Years"]]⟩ = false ∧
    (table_step (fun _ => ⟨[]⟩) []
      ⟨[[cellOf "Skill", cellOf "Years"]]⟩).rows.length = 1 := by
  have h := C10_small_table_not_skills ⟨[[cellOf "Skill", cellOf "Years"]]⟩
    (by decide)
  exact ⟨h.1, by rw [(h.2 (fun _ => ⟨[]⟩) []).2]; rfl⟩

/-! ## `IntelligentFormatter.__init__` (intelligent_formatter.py lines 28-39) -/

structure TemplateAnalysis where
  template_path : Option String
  template_type : Option String
deriving DecidableEq

structure IntelligentFormatterState where
  template_path : Option String
  template_type : Option String
  output_path : String
deriving DecidableEq

/-- Python truthiness test `not x` on an optional string field obtained via
`dict.get`: true when absent or empty. -/
def pyFalsyOpt : Option String → Bool
  | none => true
  | some s => s.isEmpty

/-- `IntelligentFormatter.__init__`: pure construction that raises
(modelled as `Except.error`) when the template path, then the template
type, is missing or empty — before any document is opened or mutated. -/
def init_intelligent_formatter (ta : TemplateAnalysis) (output_path : String) :
    Except String IntelligentFormatterState :=
  if pyFalsyOpt ta.template_path then
    .error "Template path not found in analysis. Please re-upload the template."
  else if pyFalsyOpt ta.template_type then
    .error "Template type not found in analysis. Please re-upload the template."
  else .ok ⟨ta.template_path, ta.template_type, output_path⟩

def except_ok : Except String IntelligentFormatterState → Bool
  | .ok _ => true
  | .error _ => false

/-- Claim C7: construction errors to the immediate caller exactly when the
template path or template type is missing/empty (the constructor is pure,
so no document is touched); with both present it succeeds. -/
theorem C7_init_precondition :
    (∀ (ta : TemplateAnalysis) (out : String),
      except_ok (init_intelligent_formatter ta out) =
        (!pyFalsyOpt ta.template_path && !pyFalsyOpt ta.template_type)) ∧
    init_intelligent_formatter ⟨none, some "docx"⟩ "out.docx" =
      .error "Template path not found in analysis. Please re-upload the template." ∧
    init_intelligent_formatter ⟨some "t.docx", some ""⟩ "out.docx" =
      .error "Template type not found in analysis. Please re-upload the template." ∧
    except_ok
      (init_intelligent_formatter ⟨some "t.docx", some "docx"⟩ "out.docx") =
      true := by
  refine ⟨?_, rfl, rfl, rfl⟩
  intro ta out
  rw [init_intelligent_formatter]
  split_ifs with h1 h2
  · rw [h1]
    rfl
  · rw [Bool.eq_false_iff.mpr h1, h2]
    rfl
  · rw [Bool.eq_false_iff.mpr h1, Bool.eq_false_iff.mpr h2]
    rfl

/-! ## `ResumeParser.parse` (advanced_resume_parser.py lines 27-62) and the
remaining extractors it composes -/

/-- `raw_text.split('\n')`. -/
def split_nl : Chars → List Chars
  | [] => [[]]
  | c :: rest =>
    if c = '\n' then [] :: split_nl rest
    else
      match split_nl rest with
      | [] => [[c]]
      | l :: ls => (c :: l) :: ls

/-- `self.lines = [line.strip() for line in raw_text.split('\n') if line.strip()]`. -/
def parse_lines (raw : Chars) : List Chars :=
  ((split_nl raw).filter (fun l => !(pyStrip l).isEmpty)).map pyStrip

/-- `_find_section` (lines 584-599): skip every line containing a section
keyword (entering the section at the first one), then collect lines until an
independently classified section header. -/
def find_section_go (kws : List Chars) : Bool → List Chars → List Chars
  | _, [] => []
  | inSec, l :: rest =>
    if kws.any (fun kw => containsSub (toLowerL l) kw) then
      find_section_go kws true rest
    else if inSec then
      if is_section_header l then [] else l :: find_section_go kws true rest
    else find_section_go kws false rest

def find_section (kws : List Chars) (lines : List Chars) : List Chars :=
  find_section_go kws false lines

/-- The raw `re.search` results consulted by the identity-field extractors
(the email, phone, linkedin and dob patterns of lines 116-122 and 170-216).
They run fixed regular expressions over the document text or single lines;
they are abstracted as parameters because no claim depends on their
internals, and the parse-shape invariant holds for every search behaviour
(an absent match is `none` / `false`). -/
structure TextSearch where
  emailSearch : Chars → Option Chars
  phoneUS : Chars → Option Chars
  phoneIndia : Chars → Option Chars
  phoneIntl : Chars → Option Chars
  linkedinSearch : Chars → Option Chars
  dobSearch1 : Chars → Option Chars
  dobSearch2 : Chars → Option Chars
  lineHasEmail : Chars → Bool
  lineHasPhone : Chars → Bool

/-- `_extract_email` (lines 170-174). -/
def extract_email (ts : TextSearch) (raw : Chars) : Chars :=
  match ts.emailSearch raw with
  | some m => m
  | none => []

/-- `_extract_phone` (lines 176-188): the three patterns in priority order. -/
def extract_phone (ts : TextSearch) (raw : Chars) : Chars :=
  match ts.phoneUS raw with
  | some m => m
  | none =>
    match ts.phoneIndia raw with
    | some m => m
    | none =>
      match ts.phoneIntl raw with
      | some m => m
      | none => []

/-- `_extract_linkedin` (lines 199-203). -/
def extract_linkedin (ts : TextSearch) (raw : Chars) : Chars :=
  match ts.linkedinSearch raw with
  | some m => m
  | none => []

/-- `_extract_dob` (lines 205-216): two labelled patterns in order. -/
def extract_dob (ts : TextSearch) (raw : Chars) : Chars :=
  match ts.dobSearch1 raw with
  | some m => m
  | none =>
    match ts.dobSearch2 raw with
    | some m => m
    | none => []

/-- `_has_contact_info`: `re.search(r'@|http|linkedin|\d{3}[-.\s]\d{3}',
text, IGNORECASE)`. -/
def sep3 (c : Char) : Bool := c = '-' || c = '.' || isPySpace c

def ddd_sep_ddd_at : Chars → Bool
  | a :: b :: c :: s :: d :: e :: f :: _ =>
    a.isDigit && b.isDigit && c.isDigit && sep3 s &&
      d.isDigit && e.isDigit && f.isDigit
  | _ => false

def has_ddd_sep_ddd : Chars → Bool
  | [] => false
  | c :: rest => ddd_sep_ddd_at (c :: rest) || has_ddd_sep_ddd rest

def has_contact_info (text : Chars) : Bool :=
  text.contains '@' || containsCI text ("http".toList) ||
    containsCI text ("linkedin".toList) || has_ddd_sep_ddd text

/-- `str.split()`: whitespace-separated words, no empties. -/
def split_ws_go : Nat → Chars → List Chars
  | 0, _ => []
  | _, [] => []
  | fuel + 1, c :: rest =>
    if isPySpace c then split_ws_go fuel rest
    else
      ((c :: rest).takeWhile (fun x => !isPySpace x)) ::
        split_ws_go fuel ((c :: rest).dropWhile (fun x => !isPySpace x))

def split_ws (l : Chars) : List Chars := split_ws_go l.length l

/-- `w[:1].isupper()`. -/
def first_upper (w : Chars) : Bool :=
  match w with
  | c :: _ => c.isUpper
  | [] => false

/-- `sum(w[:1].isupper() for w in words)`. -/
def count_upper_init (ws : List Chars) : Nat :=
  (ws.filter first_upper).length

/-- The scan of the up-to-four lines above the earliest contact line
(`for i in range(max(0, pivot - 3), pivot + 1)`), returning the first line
without contact markers that has 2-5 words, all but at most one starting
uppercase. -/
def try_name_above (lines : List Chars) (p : Nat) : Option Chars :=
  (List.range' (p - 3) (p + 1 - (p - 3))).findSome? (fun i =>
    let line := pyStrip (lines.getD i [])
    if has_contact_info line then none
    else
      let ws := split_ws line
      if 1 < ws.length ∧ ws.length ≤ 5 ∧
          max 2 (ws.length - 1) ≤ count_upper_init ws then
        some line
      else none)

/-- `[A-Z][a-zA-Z]+` as a full word. -/
def name_word1 (w : Chars) : Bool :=
  match w with
  | c :: rest => c.isUpper && !rest.isEmpty && rest.all Char.isAlpha
  | [] => false

/-- `[A-Z][a-zA-Z\-\.]+` as a full word. -/
def name_word2 (w : Chars) : Bool :=
  match w with
  | c :: rest =>
    c.isUpper && !rest.isEmpty && rest.all (fun x => x.isAlpha || x = '-' || x = '.')
  | [] => false

/-- `re.match(r'^[A-Z][a-zA-Z]+(?:\s+[A-Z][a-zA-Z\-\.]+){1,3}$', line.strip())`:
on the stripped line this holds exactly when its whitespace-separated words
are 2-4 in number, the first in the `[A-Z][a-zA-Z]+` shape and the rest in
the `[A-Z][a-zA-Z\-\.]+` shape (the character classes exclude whitespace, so
regex groups and words coincide). -/
def name_line_match (l : Chars) : Bool :=
  match split_ws (pyStrip l) with
  | [] => false
  | w :: ws =>
    name_word1 w && decide (1 ≤ ws.length) && decide (ws.length ≤ 3) &&
      ws.all name_word2

/-- The strict fallback over the first 10 lines (lines 145-151). -/
def try_name_strict (lines : List Chars) : Option Chars :=
  (lines.take 10).findSome? (fun line =>
    if has_contact_info line then none
    else if line.length < 3 ∨ 60 < line.length then none
    else if name_line_match line then some (pyStrip line) else none)

/-- `os.path.basename`: the text after the last '/'. -/
def basenameOf (path : Chars) : Chars :=
  (path.reverse.takeWhile (fun c => c ≠ '/')).reverse

/-- `os.path.splitext(b)[0]`: cut at the last dot, unless the name part
before it consists only of dots. -/
def splitext_stem (b : Chars) : Chars :=
  match b.reverse.dropWhile (fun c => c ≠ '.') with
  | [] => b
  | _ :: pre' =>
    if (pre'.reverse.dropWhile (fun c => c = '.')).isEmpty then b
    else pre'.reverse

/-- A maximal run character for `re.split(r'[\W_]+', stem)` pieces: a word
character other than underscore. -/
def word_piece (c : Char) : Bool := isWordChar c && !(c = '_')

/-- `re.split(r'[\W_]+', stem)`: pieces between separator runs, keeping
empty edge pieces. -/
def split_seps_go : Nat → Chars → List Chars
  | _, [] => [[]]
  | 0, l => [l]
  | fuel + 1, l =>
    let w := l.takeWhile word_piece
    match l.dropWhile word_piece with
    | [] => [w]
    | r :: rs => w :: split_seps_go fuel ((r :: rs).dropWhile (fun c => !word_piece c))

def split_seps (l : Chars) : List Chars := split_seps_go (l.length + 1) l

def nameBlacklist : List Chars :=
  (["resume", "cv", "profile", "updated", "final", "copy", "doc", "docx",
    "pdf"] : List String).map String.toList

/-- `w[:1].upper() + w[1:]`. -/
def title_word (w : Chars) : Chars :=
  match w with
  | c :: rest => c.toUpper :: rest
  | [] => []

/-- The filename fallback of `_extract_name` (lines 153-166). -/
def name_from_filename (path : Chars) : Option Chars :=
  let stem := splitext_stem (basenameOf path)
  let tokens := (split_seps stem).filter
    (fun t => !t.isEmpty && !(nameBlacklist.contains (toLowerL t)))
  if 1 ≤ tokens.length ∧ tokens.length ≤ 4 then
    let guess := List.intercalate [' '] tokens
    some (List.intercalate [' '] ((split_ws guess).map title_word))
  else none

/-- `_extract_name` (lines 110-168): the three-stage cascade ending in the
sentinel "Unknown Candidate". -/
def extract_name (ts : TextSearch) (file_path : Chars) (lines : List Chars) :
    Chars :=
  let first30 := lines.take 30
  let email_idx := first30.findIdx? ts.lineHasEmail
  let phone_idx := first30.findIdx? ts.lineHasPhone
  let pivot : Option Nat :=
    match email_idx, phone_idx with
    | some a, some b => some (min a b)
    | some a, none => some a
    | none, some b => some b
    | none, none => none
  let step1 : Option Chars :=
    match pivot with
    | some p => try_name_above lines p
    | none => none
  match step1 with
  | some n => n
  | none =>
    match try_name_strict lines with
    | some n => n
    | none =>
      match name_from_filename file_path with
      | some n => n
      | none => "Unknown Candidate".toList

def addressKeywords : List Chars :=
  (["street", "avenue", "road", "city", "state", "zip", "postal"] :
    List String).map String.toList

/-- `_extract_address` (lines 190-197). -/
def extract_address (lines : List Chars) : Chars :=
  match lines.find? (fun line =>
      addressKeywords.any (fun kw => containsSub (toLowerL line) kw)) with
  | some line => line
  | none => []

def summaryKeywords : List Chars :=
  (["summary", "objective", "profile", "about"] : List String).map String.toList

/-- `_extract_summary` (lines 218-231): up to five lines after the first
keyword line, stopping at a section header, joined by spaces. -/
def extract_summary (lines : List Chars) : Chars :=
  match lines.findIdx? (fun line =>
      summaryKeywords.any (fun kw => containsSub (toLowerL line) kw)) with
  | none => []
  | some i =>
    List.intercalate [' ']
      (((lines.drop (i + 1)).take 5).takeWhile (fun l => !is_section_header l))

/-! ### `_extract_education` (lines 369-409) and
`_parse_degree_institution_line` (lines 440-477) -/

def instKeywords : List Chars :=
  (["university", "college", "school", "institute", "academy"] :
    List String).map String.toList

/-- `(university|college|school|institute|academy)\b` matches
case-insensitively at the head of `l` (the pattern's trailing `.*` always
matches, so only this position matters). -/
def inst_kw_at (l : Chars) : Bool :=
  instKeywords.any (fun kw =>
    match word_ci kw l with
    | some rem => boundaryAfter rem
    | none => false)

/-- `m.start()` of the leftmost institution-keyword match. -/
def find_inst_idx : Chars → Option Nat
  | [] => none
  | c :: rest =>
    if inst_kw_at (c :: rest) then some 0
    else
      match find_inst_idx rest with
      | some i => some (i + 1)
      | none => none

/-- Match `\s+from\s+` (IGNORECASE) at the head of `l`. -/
def from_split_at (l : Chars) : Option Chars :=
  match l with
  | c :: _ =>
    if isPySpace c then
      match l.dropWhile isPySpace with
      | f :: r :: o :: m :: r2 =>
        if eq_ci 'f' f ∧ eq_ci 'r' r ∧ eq_ci 'o' o ∧ eq_ci 'm' m then
          match r2 with
          | s :: _ => if isPySpace s then some (r2.dropWhile isPySpace) else none
          | [] => none
        else none
      | _ => none
    else none
  | [] => none

/-- `re.split(r'\s+from\s+', s, IGNORECASE, maxsplit=1)` when a match
exists. -/
def split_from_word : Chars → Option (Chars × Chars)
  | [] => none
  | c :: rest =>
    match from_split_at (c :: rest) with
    | some post => some ([], post)
    | none =>
      match split_from_word rest with
      | some (pre, post) => some (c :: pre, post)
      | none => none

/-- `_parse_degree_institution_line`: split at the first institution-keyword
boundary if any, else on comma / spaced dash / pipe / "from", else the whole
line is the degree. -/
def parse_degree_institution_line (line : Chars) : Chars × Chars :=
  let s := strip_bullet (normalize_text line)
  match find_inst_idx s with
  | some i =>
    (pyStripSet (" ,;:-".toList) (s.take i), strip_location (pyStrip (s.drop i)))
  | none =>
    if containsSub s (",".toList) then
      match split_char ',' s with
      | some (p1, p2) => (pyStrip p1, pyStrip p2)
      | none => (pyStrip s, [])
    else if containsSub s (" - ".toList) || containsSub s (" – ".toList) then
      match split_dash s with
      | some (p1, p2) => (pyStrip p1, pyStrip p2)
      | none => (pyStrip s, [])
    else if containsSub s ("|".toList) then
      match split_char '|' s with
      | some (p1, p2) => (pyStrip p1, pyStrip p2)
      | none => (pyStrip s, [])
    else if containsCI s (" from ".toList) then
      match split_from_word s with
      | some (p1, p2) => (pyStrip p1, pyStrip p2)
      | none => (pyStrip s, [])
    else (pyStrip s, [])

structure EducationEntry where
  degree : Chars
  institution : Chars
  year : Chars
  details : List Chars
deriving DecidableEq

/-- The index-driven scan of `_extract_education`. -/
def extract_education_go (cy : Chars) (lines : List Chars) :
    Nat → Nat → List EducationEntry
  | 0, _ => []
  | fuel + 1, i =>
    if i < lines.length then
      let line := lines.getD i []
      if containsSub line (":".toList) ||
          instKeywords.any (fun kw => containsSub (toLowerL line) kw) then
        let di := parse_degree_institution_line line
        let degree := pyStrip di.1
        let institution := strip_location di.2
        let hnext := decide (i + 1 < lines.length) &&
          contains_date_range (lines.getD (i + 1) [])
        let year :=
          if hnext then clean_years cy (lines.getD (i + 1) [])
          else clean_years cy line
        let i2 := if hnext then i + 2 else i + 1
        ⟨degree, institution, year, []⟩ :: extract_education_go cy lines fuel i2
      else extract_education_go cy lines fuel (i + 1)
    else []

def extract_education (cy : Chars) (sectionLines : List Chars) :
    List EducationEntry :=
  let lines := (sectionLines.filter
    (fun l => !l.isEmpty && !(pyStrip l).isEmpty)).map normalize_text
  extract_education_go cy lines (lines.length + 1) 0

/-! ### The remaining section extractors (lines 499-582) -/

/-- `re.split(r'[,|•]', line)`: split at every single separator character. -/
def split_multi_go : Nat → Chars → List Chars
  | _, [] => [[]]
  | 0, l => [l]
  | fuel + 1, l =>
    let w := l.takeWhile (fun c => !(c = ',' || c = '|' || c = '•'))
    match l.dropWhile (fun c => !(c = ',' || c = '|' || c = '•')) with
    | [] => [w]
    | _ :: r2 => w :: split_multi_go fuel r2

def split_multi (l : Chars) : List Chars := split_multi_go (l.length + 1) l

def skillsSectionKeywords : List Chars :=
  (["skills", "technical skills", "competencies", "expertise"] :
    List String).map String.toList

/-- `_extract_skills` (lines 499-513). -/
def extract_skills (lines : List Chars) : List Chars :=
  (find_section skillsSectionKeywords lines).foldl
    (fun acc line =>
      if containsSub line (",".toList) || containsSub line ("|".toList) ||
          containsSub line ("•".toList) then
        acc ++ ((split_multi line).map pyStrip).filter (fun p => !p.isEmpty)
      else if !line.isEmpty && !is_section_header line then acc ++ [line]
      else acc)
    []

structure Project where
  name : Option Chars
  details : List Chars
deriving DecidableEq

def projectsSectionKeywords : List Chars :=
  (["projects", "key projects", "project work"] : List String).map String.toList

/-- `_extract_projects` (lines 515-533): a non-bulleted, non-header line
starts a new project; any other non-empty line is appended to the current
project's details (creating a nameless project when none is open yet). -/
def extract_projects_go : Option Project → List Chars → List Project
  | cur, [] =>
    match cur with
    | some p => [p]
    | none => []
  | cur, line :: rest =>
    if !line.isEmpty && !(("•".toList).isPrefixOf line) &&
        !is_section_header line then
      match cur with
      | some p => p :: extract_projects_go (some ⟨some line, []⟩) rest
      | none => extract_projects_go (some ⟨some line, []⟩) rest
    else if !line.isEmpty then
      match cur with
      | some p => extract_projects_go (some ⟨p.name, p.details ++ [line]⟩) rest
      | none => extract_projects_go (some ⟨none, [line]⟩) rest
    else extract_projects_go cur rest

def extract_projects (lines : List Chars) : List Project :=
  extract_projects_go none (find_section projectsSectionKeywords lines)

/-- `_extract_certifications` / `_extract_awards` / `_extract_languages`:
the located section's non-empty, non-header lines. -/
def extract_simple_section (kws : List Chars) (lines : List Chars) :
    List Chars :=
  (find_section kws lines).filter (fun l => !l.isEmpty && !is_section_header l)

def certKeywords : List Chars :=
  (["certifications", "certificates", "licenses"] : List String).map String.toList

def awardKeywords : List Chars :=
  (["awards", "achievements", "honors", "recognition"] :
    List String).map String.toList

def langKeywords : List Chars :=
  (["languages", "language proficiency"] : List String).map String.toList

def expSectionKeywords : List Chars :=
  (["experience", "work history", "employment", "professional experience"] :
    List String).map String.toList

def eduSectionKeywords : List Chars :=
  (["education", "academic", "qualification"] : List String).map String.toList

/-- `sections[key].append(line)` on a defaultdict, preserving first-touch
key order. -/
def sections_upsert : List (Chars × List Chars) → Chars → Chars →
    List (Chars × List Chars)
  | [], k, v => [(k, [v])]
  | (k0, vs) :: rest, k, v =>
    if k0 = k then (k0, vs ++ [v]) :: rest
    else (k0, vs) :: sections_upsert rest k v

/-- `_extract_sections` (lines 571-582). -/
def extract_sections_go :
    Option Chars → List (Chars × List Chars) → List Chars →
      List (Chars × List Chars)
  | _, acc, [] => acc
  | cur, acc, line :: rest =>
    if is_section_header line then
      extract_sections_go (some (pyStrip (toLowerL line))) acc rest
    else
      match cur with
      | some k =>
        if !k.isEmpty && !line.isEmpty then
          extract_sections_go cur (sections_upsert acc k line) rest
        else extract_sections_go cur acc rest
      | none => extract_sections_go none acc rest

def extract_sections (lines : List Chars) : List (Chars × List Chars) :=
  extract_sections_go none [] lines

/-! ### The parse result dictionary -/

/-- A Python value in the parse result: `pynone` models Python's `None`
(never produced — that is the point of claim C8). -/
inductive PyVal where
  | pynone : PyVal
  | str : Chars → PyVal
  | strList : List Chars → PyVal
  | expList : List ExperienceEntry → PyVal
  | eduList : List EducationEntry → PyVal
  | projList : List Project → PyVal
  | sectionsDict : List (Chars × List Chars) → PyVal
deriving DecidableEq

/-- Shape code of a value: 0 = None, 1 = string, 2 = sequence, 3 = mapping. -/
def val_shape : PyVal → Nat
  | .pynone => 0
  | .str _ => 1
  | .strList _ => 2
  | .expList _ => 2
  | .eduList _ => 2
  | .projList _ => 2
  | .sectionsDict _ => 3

/-- `ResumeParser.parse` (lines 27-62): the result dictionary with its
sixteen keys in source order.  `cy` is `str(datetime.now().year)`, `ts` the
regex-search results, `file_path` the source path (for the name fallback)
and `raw` the text extracted from the document. -/
def parse (cy : Chars) (ts : TextSearch) (file_path raw : Chars) :
    List (Chars × PyVal) :=
  let lines := parse_lines raw
  [("name".toList, .str (extract_name ts file_path lines)),
   ("email".toList, .str (extract_email ts raw)),
   ("phone".toList, .str (extract_phone ts raw)),
   ("address".toList, .str (extract_address lines)),
   ("linkedin".toList, .str (extract_linkedin ts raw)),
   ("dob".toList, .str (extract_dob ts raw)),
   ("summary".toList, .str (extract_summary lines)),
   ("experience".toList,
     .expList (extract_experience cy (find_section expSectionKeywords lines))),
   ("education".toList,
     .eduList (extract_education cy (find_section eduSectionKeywords lines))),
   ("skills".toList, .strList (extract_skills lines)),
   ("projects".toList, .projList (extract_projects lines)),
   ("certifications".toList, .strList (extract_simple_section certKeywords lines)),
   ("awards".toList, .strList (extract_simple_section awardKeywords lines)),
   ("languages".toList, .strList (extract_simple_section langKeywords lines)),
   ("sections".toList, .sectionsDict (extract_sections lines)),
   ("raw_text".toList, .str raw)]

/-- Claim C8: for every current-year string, search behaviour, file path and
raw document text, the parse result carries exactly the sixteen top-level
keys in order, each bound to a value of the documented shape (1 = string for
the identity/summary/raw fields, 2 = sequence for the list fields, 3 =
mapping for sections), and no value is None. -/
theorem C8_parse_shape (cy : Chars) (ts : TextSearch) (file_path raw : Chars) :
    ((parse cy ts file_path raw).map (fun kv => (kv.1, val_shape kv.2)) =
      [("name".toList, 1), ("email".toList, 1), ("phone".toList, 1),
       ("address".toList, 1), ("linkedin".toList, 1), ("dob".toList, 1),
       ("summary".toList, 1), ("experience".toList, 2),
       ("education".toList, 2), ("skills".toList, 2), ("projects".toList, 2),
       ("certifications".toList, 2), ("awards".toList, 2),
       ("languages".toList, 2), ("sections".toList, 3),
       ("raw_text".toList, 1)]) ∧
    ∀ kv ∈ parse cy ts file_path raw, kv.2 ≠ PyVal.pynone := by
  refine ⟨rfl, ?_⟩
  intro kv hkv hnone
  have hm : (kv.1, val_shape kv.2) ∈
      (parse cy ts file_path raw).map (fun kv => (kv.1, val_shape kv.2)) :=
    List.mem_map_of_mem _ hkv
  rw [hnone] at hm
  have hall : ∀ p ∈ (parse cy ts file_path raw).map
      (fun kv => (kv.1, val_shape kv.2)), p.2 ≠ 0 := by
    intro p hp
    rw [show (parse cy ts file_path raw).map (fun kv => (kv.1, val_shape kv.2)) =
      [("name".toList, 1), ("email".toList, 1), ("phone".toList, 1),
       ("address".toList, 1), ("linkedin".toList, 1), ("dob".toList, 1),
       ("summary".toList, 1), ("experience".toList, 2),
       ("education".toList, 2), ("skills".toList, 2), ("projects".toList, 2),
       ("certifications".toList, 2), ("awards".toList, 2),
       ("languages".toList, 2), ("sections".toList, 3),
       ("raw_text".toList, 1)] from rfl] at hp
    revert hp
    revert p
    decide
  exact hall _ hm rfl

/-- A trivial search behaviour (no regex match anywhere). -/
def ts0 : TextSearch :=
  ⟨fun _ => none, fun _ => none, fun _ => none, fun _ => none, fun _ => none,
   fun _ => none, fun _ => none, fun _ => false, fun _ => false⟩

/-- Witness for C8 at concrete inputs. -/
theorem C8_witness :
    ("raw_text".toList, PyVal.str ("Hi".toList)) ∈
      parse ("2026".toList) ts0 ("r.docx".toList) ("Hi".toList) ∧
    PyVal.str ("Hi".toList) ≠ PyVal.pynone :=
  ⟨by decide,
   (C8_parse_shape ("2026".toList) ts0 ("r.docx".toList) ("Hi".toList)).2
     ("raw_text".toList, PyVal.str ("Hi".toList)) (by decide)⟩
